import Mathlib

/-!
Verification development for the task-orchestration core of the
semantic-checkpoint repository (src/agent_runner.py, src/api_server.py).

The stateful Python code is shallowly embedded as pure Lean functions:

* the Task Registry entry of one task (`tasks[task_id]` in api_server.py,
  `tasks_registry[config.task_id]` in agent_runner.py) becomes `TaskRec`;
* every externally observable effect (registry field writes, MongoDB ledger
  calls, callback notifications) is recorded in order in a `List Event`;
* the collaborators (MongoDB ledger, callback endpoint, browser environment,
  agent) are modelled by a `World` of oracles: each raisable call site gets
  an `Option String` outcome (`none` = the call succeeds, `some e` = the call
  raises an exception rendered as the string `e`, standing for Python's
  `f"{type(e).__name__}: {e}"`); the agent's decision, reasoning, screenshot
  and the environment's done flag are functions of the step index, which is
  faithful because the loop is deterministic given those answers;
* Python exception control flow becomes explicit branching: a raising call
  emits no event and control transfers to the enclosing `except` block
  (or propagates out when there is none);
* the concurrent cancellation surface (DELETE /tasks/{task_id}) is modelled
  by `cancel_at : Option Nat`: `some c` means the surface's write of
  "cancelling" into the registry becomes visible to the worker at loop
  boundary `c` (the worker reads the status only at loop boundaries, so a
  mid-iteration write is equivalent to one landing at the next boundary);
  a write landing after the loop has already exited (environment done or
  no-action break at step `c`) is emitted just before the epilogue, and a
  cancellation issued after the whole run is modelled by applying
  `cancel_task` to the final record;
* wall-clock timestamps (`StatusUpdate.timestamp`) are omitted: they carry
  no information relevant to any claim.
-/

set_option maxHeartbeats 2000000
set_option maxRecDepth 100000

namespace WebAgent

/-- Configuration for a web agent task (dataclass `TaskConfig`,
agent_runner.py lines 50-60). -/
structure TaskConfig where
  task_id : String
  capsule_id : String
  start_url : String
  goal_text : String
  goal_images : List String
  callback_url : String
  headless : Bool
  max_steps : Nat
deriving DecidableEq

/-- Status update posted to the callback URL (dataclass `StatusUpdate`,
agent_runner.py lines 63-91); the wall-clock `timestamp` field is omitted. -/
structure StatusUpdate where
  task_id : String
  status : String
  step : Nat
  total_steps : Nat
  action : Option String
  reasoning : Option String
  screenshot_base64 : Option String
  error : Option String
deriving DecidableEq

/-- The fields of one Task Registry record that the runner mutates
(`tasks[run_id]` in api_server.py line 155; only `status`, `step` and
`error` are ever written after creation). -/
structure TaskRec where
  status : String
  step : Nat
  error : Option String
deriving DecidableEq

/-- One externally observable effect, in program order: a registry field
write, a MongoDB ledger call that succeeded, or a callback notification. -/
inductive Event where
  | setStatus (s : String)
  | setStep (n : Nat)
  | setError (msg : String)
  | createRun
  | updateRunStatus (s : String)
  | addStep (step_id : String) (index : Nat) (title : String) (input_summary : String)
  | completeStep (step_id : String) (output_summary : String) (status : String)
  | failStep (step_id : String) (error_type : String) (error_message : String)
  | capsuleStats
  | notify (u : StatusUpdate)
deriving DecidableEq

/-- Zero-padded decimal rendering of `n` to width at least 3: Python's
`f"{index:03d}"` for a nonnegative index. -/
def pad3 (n : Nat) : String :=
  String.mk (List.replicate (3 - (Nat.repr n).length) '0') ++ Nat.repr n

/-- `generate_step_id` (agent_runner.py lines 185-187):
`f"step_{run_id}_{index:03d}"`. -/
def generate_step_id (run_id : String) (index : Nat) : String :=
  "step_" ++ run_id ++ "_" ++ pad3 index

/-- `action_title = action[:50] + "..." if action and len(action) > 50 else
action` (agent_runner.py line 408). Python slices by code point, as does
`List.take` on `String.data`; `action and len(action) > 50` is equivalent to
`len(action) > 50` because a string of length > 50 is truthy. -/
def action_title (action : Option String) : Option String :=
  match action with
  | none => none
  | some a => if 50 < a.length then some (String.mk (a.data.take 50) ++ "...") else some a

/-- `output_summary=action_title or "No action"` (agent_runner.py line 412):
Python `or` replaces a falsy value (`None` or `""`) by `"No action"`. -/
def step_output_summary (action : Option String) : String :=
  match action_title action with
  | none => "No action"
  | some t => if t = "" then "No action" else t

/-- The ledger write closing a step entry (agent_runner.py lines 409-414):
`mongodb.complete_step(..., output_summary=action_title or "No action",
status="success")`. -/
def close_step_event (step_id : String) (action : Option String) : Event :=
  Event.completeStep step_id (step_output_summary action) "success"

/-- Outcome of the one network call inside `send_status_update_sync`:
`ok` = 2xx response, `httpError` = an `httpx.HTTPError` (transport error or
the `raise_for_status` on a non-2xx response), `otherError` = any other
exception. -/
inductive NetOutcome where
  | ok
  | httpError (msg : String)
  | otherError (msg : String)
deriving DecidableEq

/-- `send_status_update_sync` (agent_runner.py lines 94-113): returns `True`
with no network call when `callback_url` is falsy (empty); otherwise returns
`True` on a 2xx response and `False` on any caught exception. Both `except`
arms return `False`, so the function never raises to its caller; totality of
this Lean function reflects that. -/
def send_status_update_sync (callback_url : String) (net : NetOutcome) : Bool :=
  if callback_url = "" then true
  else
    match net with
    | NetOutcome.ok => true
    | NetOutcome.httpError _ => false
    | NetOutcome.otherError _ => false

/-- Whether `send_status_update_sync` enters the `httpx.Client` block at all:
it is skipped exactly when `callback_url` is falsy (line 96). -/
def send_performs_request (callback_url : String) : Bool :=
  callback_url ≠ ""

/-- The oracles describing one concrete execution environment of a run:
module capability flags, the outcome of every raisable collaborator call
site (`none` = success, `some e` = raises an exception rendered as `e`), the
agent's and environment's answers per step index, and the boundary at which
a concurrent cancellation request becomes visible (see the module docstring).
Line numbers refer to agent_runner.py. -/
structure World where
  /-- `AGENT_AVAILABLE` (lines 37-42). -/
  agent_available : Bool
  /-- `MONGODB_AVAILABLE` (lines 28-34). -/
  mongodb_available : Bool
  /-- `mongodb.create_run` (line 202; wrapped in try/except). -/
  create_run_error : Option String
  /-- `mongodb.update_run_status(run_id, "failed")` (line 220, unavailable path). -/
  upd_unavail_error : Option String
  /-- `mongodb.update_run_status(run_id, "failed")` (line 269, orchestrator except). -/
  upd_orch_fail_error : Option String
  /-- `mongodb.add_step` for step index k (lines 337 for k = 0, 379 for k ≥ 1). -/
  add_step_error : Nat → Option String
  /-- `mongodb.complete_step` for step index k (lines 345 for k = 0, 409). -/
  complete_step_error : Nat → Option String
  /-- `mongodb.update_capsule_stats` (line 352, initial source count). -/
  capsule_stats_init_error : Option String
  /-- `mongodb.update_capsule_stats` (line 400, screenshot count at step k). -/
  capsule_stats_shot_error : Nat → Option String
  /-- `mongodb.update_run_status(run_id, "cancelled")` (line 361). -/
  upd_cancelled_error : Option String
  /-- `mongodb.update_run_status(run_id, "completed")` (line 451). -/
  upd_completed_error : Option String
  /-- `mongodb.update_run_status(run_id, "failed")` (line 486, worker except). -/
  upd_failed_sync_error : Option String
  /-- `mongodb.fail_step` (line 488). -/
  fail_step_error : Option String
  /-- `exp_args.prepare` / `results_dir.mkdir` (lines 309-311, before the try). -/
  prepare_error : Option String
  /-- `make_agent` / `make_env` (lines 318-322). -/
  init_error : Option String
  /-- `step_info.from_reset` (line 326). -/
  reset_error : Option String
  /-- `step_info.is_done` right after the reset. -/
  done0 : Bool
  /-- `step_info.from_action(agent)` at step index k (line 389): the action,
  `none` rendering Python `None`. -/
  action : Nat → Option String
  /-- whether `from_action` raises at step index k. -/
  action_error : Nat → Option String
  /-- `step_info.agent_info.get("think", None)` at step index k (line 392). -/
  reasoning : Nat → Option String
  /-- the encoded screenshot at step index k (lines 395-397;
  `encode_screenshot_base64` catches its own exceptions, returning `None`). -/
  screenshot : Nat → Option String
  /-- `step_info.save_step_info` inside the loop at step index k (line 435). -/
  save_error : Nat → Option String
  /-- `step_info.from_step` executing the action of step index k (line 443). -/
  step_error : Nat → Option String
  /-- `step_info.is_done` after executing the action of step index k. -/
  done_after : Nat → Bool
  /-- the final `step_info.save_step_info` after the loop (line 470). -/
  final_save_error : Option String
  /-- the encoded final screenshot (lines 454-456). -/
  final_screenshot : Option String
  /-- boundary at which a concurrent `cancel_task` write becomes visible. -/
  cancel_at : Option Nat

/-- Whether the cancellation surface's write of "cancelling" has landed by
loop boundary `k` (the worker reads the status at line 356 once per
boundary). -/
def cancelLanded (w : World) (k : Nat) : Bool :=
  match w.cancel_at with
  | some c => c ≤ k
  | none => false

/-- Worker-thread state while the step loop runs: the registry record, the
thread-local `current_step_id` (line 314) and `current_step` (line 332). -/
structure SyncSt where
  record : TaskRec
  stepId : Option String
  k : Nat
deriving DecidableEq

/-- How one iteration of the `while not step_info.is_done` body ended. -/
inductive IterOut where
  | raise (evs : List Event) (st : SyncSt) (e : String)
  | brk (evs : List Event) (st : SyncSt)
  | next (evs : List Event) (st : SyncSt) (done : Bool)
deriving DecidableEq

/-- The worker state carried out of one iteration. -/
def IterOut.state : IterOut → SyncSt
  | IterOut.raise _ st _ => st
  | IterOut.brk _ st => st
  | IterOut.next _ st _ => st

/-- The events emitted by one iteration. -/
def IterOut.events : IterOut → List Event
  | IterOut.raise evs _ _ => evs
  | IterOut.brk evs _ => evs
  | IterOut.next evs _ _ => evs

/-- How the whole step loop ended: `finished tr` = the `while` condition
became false (`tr` = `step_info.truncated`, set at line 431 when the agent
returned no action and the loop exited via `break`), `cancelledExit` = the
cancellation checkpoint returned (line 372), `raised e` = an exception
escaped the loop body. -/
inductive LoopExit where
  | finished (truncated : Bool)
  | cancelledExit
  | raised (e : String)
deriving DecidableEq

/-- The "running" status update sent once per step (lines 417-428). -/
def runningUpdate (cfg : TaskConfig) (k : Nat) (act rsn shot : Option String) : StatusUpdate :=
  ⟨cfg.task_id, "running", k, cfg.max_steps, act, rsn, shot, none⟩

/-- A terminal "failed" status update (lines 222-231, 271-280, 495-504). -/
def failedUpdate (cfg : TaskConfig) (step : Nat) (msg : String) : StatusUpdate :=
  ⟨cfg.task_id, "failed", step, cfg.max_steps, none, none, none, some msg⟩

/-- One iteration of the step loop body after the cancellation checkpoint
passed (agent_runner.py lines 374-443): increment `current_step`, open the
ledger step entry, ask the agent for an action, extract reasoning and
screenshot, write the registry step index, close the ledger entry, send the
step status update, then either break on a missing action or persist and
execute the action. -/
def stepIter (cfg : TaskConfig) (w : World) (notify : StatusUpdate → Bool) (st : SyncSt) : IterOut :=
  let k := st.k + 1
  let sid := if w.mongodb_available then some (generate_step_id cfg.task_id k) else st.stepId
  match (if w.mongodb_available then w.add_step_error k else none) with
  | some e => IterOut.raise [] ⟨st.record, sid, k⟩ e
  | none =>
  let evs1 := if w.mongodb_available then
      [Event.addStep (generate_step_id cfg.task_id k) k
        ("Step " ++ Nat.repr k ++ ": Analyzing page")
        "Determining next action based on goal"]
    else []
  match w.action_error k with
  | some e => IterOut.raise evs1 ⟨st.record, sid, k⟩ e
  | none =>
  let act := w.action k
  let rsn := w.reasoning k
  let shot := w.screenshot k
  match (if shot.isSome && w.mongodb_available then w.capsule_stats_shot_error k else none) with
  | some e => IterOut.raise evs1 ⟨st.record, sid, k⟩ e
  | none =>
  let evs2 := evs1 ++ (if shot.isSome && w.mongodb_available then [Event.capsuleStats] else [])
  let rec2 : TaskRec := ⟨st.record.status, k, st.record.error⟩
  let evs3 := evs2 ++ [Event.setStep k]
  match (if w.mongodb_available then sid else none) with
  | some s =>
    match w.complete_step_error k with
    | some e => IterOut.raise evs3 ⟨rec2, sid, k⟩ e
    | none => stepIterTail cfg w notify rec2 sid k act rsn shot (evs3 ++ [close_step_event s act])
  | none => stepIterTail cfg w notify rec2 sid k act rsn shot evs3
where
  /-- Lines 416-443: the step status update and the break / persist-and-step
  tail of the iteration. -/
  stepIterTail (cfg : TaskConfig) (w : World) (notify : StatusUpdate → Bool)
      (rec2 : TaskRec) (sid : Option String) (k : Nat)
      (act rsn shot : Option String) (evs : List Event) : IterOut :=
    let u := runningUpdate cfg k act rsn shot
    let _r := notify u
    let evs5 := evs ++ [Event.notify u]
    match act with
    | none =>
      if cancelLanded w k then
        IterOut.brk (evs5 ++ [Event.setStatus "cancelling"]) ⟨⟨"cancelling", k, rec2.error⟩, sid, k⟩
      else IterOut.brk evs5 ⟨rec2, sid, k⟩
    | some _ =>
      match w.save_error k with
      | some e => IterOut.raise evs5 ⟨rec2, sid, k⟩ e
      | none =>
        match w.step_error k with
        | some e => IterOut.raise evs5 ⟨rec2, sid, k⟩ e
        | none => IterOut.next evs5 ⟨rec2, sid, k⟩ (w.done_after k)

/-- The `while not step_info.is_done` loop (agent_runner.py lines 354-443),
with an explicit fuel bound (the real loop is bounded by the environment's
internal `max_steps`; theorems hypothesise a `some` result). Each boundary
first evaluates the loop condition, then the cancellation checkpoint
(lines 356-372), then one iteration. A cancellation write that lands at the
exit boundary itself is emitted before the loop returns. -/
def stepLoop (cfg : TaskConfig) (w : World) (notify : StatusUpdate → Bool) :
    Nat → Bool → SyncSt → Option (List Event × SyncSt × LoopExit)
  | _, true, st =>
    if cancelLanded w st.k then
      some ([Event.setStatus "cancelling"],
        ⟨⟨"cancelling", st.record.step, st.record.error⟩, st.stepId, st.k⟩, LoopExit.finished false)
    else some ([], st, LoopExit.finished false)
  | 0, false, _ => none
  | Nat.succ fuel, false, st =>
    if cancelLanded w st.k then
      let rec1 : TaskRec := ⟨"cancelled", st.record.step, st.record.error⟩
      let evs1 := [Event.setStatus "cancelling", Event.setStatus "cancelled"]
      match (if w.mongodb_available then w.upd_cancelled_error else none) with
      | some e => some (evs1, ⟨rec1, st.stepId, st.k⟩, LoopExit.raised e)
      | none =>
        let evs2 := evs1 ++ (if w.mongodb_available then [Event.updateRunStatus "cancelled"] else [])
        let u : StatusUpdate := ⟨cfg.task_id, "cancelled", st.k, cfg.max_steps, none, none, none, none⟩
        let _r := notify u
        some (evs2 ++ [Event.notify u], ⟨rec1, st.stepId, st.k⟩, LoopExit.cancelledExit)
    else
      match stepIter cfg w notify st with
      | IterOut.raise evs st' e => some (evs, st', LoopExit.raised e)
      | IterOut.brk evs st' => some (evs, st', LoopExit.finished true)
      | IterOut.next evs st' d =>
        match stepLoop cfg w notify fuel d st' with
        | none => none
        | some (evs', st'', ex) => some (evs ++ evs', st'', ex)

deriving instance DecidableEq for Except

/-- Result of `run_agent_sync`: the events it emitted, the final registry
record, `Except.error e` when an exception propagates to the orchestrator
(the worker re-raises at line 505, or a call outside any try raises), and
the final `step_info.truncated` flag. -/
structure SyncResult where
  events : List Event
  record : TaskRec
  outcome : Except String Unit
  truncated : Bool
deriving DecidableEq

/-- The worker's `except Exception` block (agent_runner.py lines 476-505):
write "failed" and the wrapped error message into the registry, best-effort
ledger updates (these calls are NOT individually wrapped: if one raises, the
rest of the block including the notification is skipped and the new
exception propagates), send a terminal failed update, and re-raise. -/
def syncExceptBlock (cfg : TaskConfig) (w : World) (notify : StatusUpdate → Bool)
    (evs0 : List Event) (record : TaskRec) (sid : Option String) (tr : Bool) (e : String) : SyncResult :=
  let msg := "Agent error: " ++ e
  let rec1 : TaskRec := ⟨"failed", record.step, some msg⟩
  let evs1 := evs0 ++ [Event.setStatus "failed", Event.setError msg]
  match (if w.mongodb_available then w.upd_failed_sync_error else none) with
  | some e2 => ⟨evs1, rec1, Except.error e2, tr⟩
  | none =>
  let evs2 := evs1 ++ (if w.mongodb_available then [Event.updateRunStatus "failed"] else [])
  match (if w.mongodb_available then sid else none) with
  | some s =>
    match w.fail_step_error with
    | some e3 => ⟨evs2, rec1, Except.error e3, tr⟩
    | none =>
      let u := failedUpdate cfg rec1.step msg
      let _r := notify u
      ⟨evs2 ++ [Event.failStep s "unknown" e, Event.notify u], rec1, Except.error e, tr⟩
  | none =>
    let u := failedUpdate cfg rec1.step msg
    let _r := notify u
    ⟨evs2 ++ [Event.notify u], rec1, Except.error e, tr⟩

/-- The post-loop epilogue plus exception handling of `run_agent_sync`
(lines 445-505): run the loop, then on normal exit write "completed" and the
final step index, best-effort ledger run-status update, send the terminal
completed update (with the final screenshot) and save the final step info. -/
def runSyncLoop (cfg : TaskConfig) (w : World) (notify : StatusUpdate → Bool)
    (fuel : Nat) (evs0 : List Event) (st : SyncSt) : Option SyncResult :=
  match stepLoop cfg w notify fuel w.done0 st with
  | none => none
  | some (levs, st', ex) =>
    let evs := evs0 ++ levs
    match ex with
    | LoopExit.raised e => some (syncExceptBlock cfg w notify evs st'.record st'.stepId false e)
    | LoopExit.cancelledExit => some ⟨evs, st'.record, Except.ok (), false⟩
    | LoopExit.finished tr =>
      let rec1 : TaskRec := ⟨"completed", st'.k, st'.record.error⟩
      let evs1 := evs ++ [Event.setStatus "completed", Event.setStep st'.k]
      match (if w.mongodb_available then w.upd_completed_error else none) with
      | some e => some (syncExceptBlock cfg w notify evs1 rec1 st'.stepId tr e)
      | none =>
        let evs2 := evs1 ++ (if w.mongodb_available then [Event.updateRunStatus "completed"] else [])
        let u : StatusUpdate := ⟨cfg.task_id, "completed", st'.k, cfg.max_steps, none, none, w.final_screenshot, none⟩
        let _r := notify u
        let evs3 := evs2 ++ [Event.notify u]
        match w.final_save_error with
        | some e => some (syncExceptBlock cfg w notify evs3 rec1 st'.stepId tr e)
        | none => some ⟨evs3, rec1, Except.ok (), tr⟩

/-- `run_agent_sync` (agent_runner.py lines 283-512): prepare (outside the
try: a raise here propagates with no worker-side bookkeeping), construct
agent and environment, reset, write-and-close the synthetic step 0 ledger
entry, then run the step loop with its epilogue and except block. -/
def run_agent_sync (cfg : TaskConfig) (w : World) (notify : StatusUpdate → Bool)
    (fuel : Nat) (rec0 : TaskRec) : Option SyncResult :=
  match w.prepare_error with
  | some e => some ⟨[], rec0, Except.error e, false⟩
  | none =>
  match w.init_error with
  | some e => some (syncExceptBlock cfg w notify [] rec0 none false e)
  | none =>
  match w.reset_error with
  | some e => some (syncExceptBlock cfg w notify [] rec0 none false e)
  | none =>
  if w.mongodb_available then
    let sid0 := generate_step_id cfg.task_id 0
    match w.add_step_error 0 with
    | some e => some (syncExceptBlock cfg w notify [] rec0 (some sid0) false e)
    | none =>
      let evA := [Event.addStep sid0 0 ("Navigate to " ++ cfg.start_url) ("Open " ++ cfg.start_url)]
      match w.complete_step_error 0 with
      | some e => some (syncExceptBlock cfg w notify evA rec0 (some sid0) false e)
      | none =>
        let evB := evA ++ [Event.completeStep sid0 "Page loaded successfully" "success"]
        match w.capsule_stats_init_error with
        | some e => some (syncExceptBlock cfg w notify evB rec0 (some sid0) false e)
        | none => runSyncLoop cfg w notify fuel (evB ++ [Event.capsuleStats]) ⟨rec0, some sid0, 0⟩
  else runSyncLoop cfg w notify fuel [] ⟨rec0, none, 0⟩

/-- Result of `run_agent_task`: events, final registry record, an exception
escaping `run_agent_task` itself (`escaped`, possible only from the
unwrapped MongoDB calls at lines 220 and 269), the exception that surfaced
from `run_agent_sync` (`syncErr`, absorbed by the orchestrator's except
block), and the final truncated flag. -/
structure TaskResult where
  events : List Event
  record : TaskRec
  escaped : Option String
  syncErr : Option String
  truncated : Bool
deriving DecidableEq

/-- The error message of the fast-fail precondition check (line 213). -/
def agent_unavailable_msg : String :=
  "AgentLab not available. Please install agentlab package."

/-- The best-effort `mongodb.create_run` call (agent_runner.py lines
199-210): wrapped in its own try/except, so a raise is swallowed and merely
leaves no ledger event. -/
def createRunEvents (w : World) : List Event :=
  if w.mongodb_available then
    (match w.create_run_error with
     | some _ => []
     | none => [Event.createRun])
  else []

/-- `run_agent_task` (agent_runner.py lines 190-280): best-effort ledger run
creation, the `AGENT_AVAILABLE` fast-fail check, transition to "running",
the initial "initializing" status update, hand-off to `run_agent_sync`, and
the orchestrator's except block which absorbs a worker exception after
recording it. -/
def run_agent_task (cfg : TaskConfig) (w : World) (notify : StatusUpdate → Bool)
    (fuel : Nat) (rec0 : TaskRec) : Option TaskResult :=
  let evs0 := createRunEvents w
  if w.agent_available then
    let rec1 : TaskRec := ⟨"running", rec0.step, rec0.error⟩
    let evs1 := evs0 ++ [Event.setStatus "running"]
    let u0 : StatusUpdate := ⟨cfg.task_id, "running", 0, cfg.max_steps, some "initializing", none, none, none⟩
    let _r := notify u0
    let evs2 := evs1 ++ [Event.notify u0]
    match run_agent_sync cfg w notify fuel rec1 with
    | none => none
    | some s =>
      let evs3 := evs2 ++ s.events
      match s.outcome with
      | Except.ok _ => some ⟨evs3, s.record, none, none, s.truncated⟩
      | Except.error e =>
        let msg := "Agent task failed: " ++ e
        let rec2 : TaskRec := ⟨"failed", s.record.step, some msg⟩
        let evs4 := evs3 ++ [Event.setStatus "failed", Event.setError msg]
        match (if w.mongodb_available then w.upd_orch_fail_error else none) with
        | some e2 => some ⟨evs4, rec2, some e2, some e, s.truncated⟩
        | none =>
          let evs5 := evs4 ++ (if w.mongodb_available then [Event.updateRunStatus "failed"] else [])
          let u := failedUpdate cfg rec2.step msg
          let _r2 := notify u
          some ⟨evs5 ++ [Event.notify u], rec2, none, some e, s.truncated⟩
  else
    let rec1 : TaskRec := ⟨"failed", rec0.step, some agent_unavailable_msg⟩
    let evs1 := evs0 ++ [Event.setStatus "failed", Event.setError agent_unavailable_msg]
    match (if w.mongodb_available then w.upd_unavail_error else none) with
    | some e => some ⟨evs1, rec1, some e, none, false⟩
    | none =>
      let evs2 := evs1 ++ (if w.mongodb_available then [Event.updateRunStatus "failed"] else [])
      let u := failedUpdate cfg 0 agent_unavailable_msg
      let _r := notify u
      some ⟨evs2 ++ [Event.notify u], rec1, none, none, false⟩

/-- The registry record created by `POST /start` (api_server.py lines
155-162): status "starting", step 0, no error. -/
def start_task_register : TaskRec := ⟨"starting", 0, none⟩

/-- Submission followed by the background run: `POST /start` registers the
record (its creation is the first status write) and schedules
`run_agent_task` on it. -/
def startAndRun (cfg : TaskConfig) (w : World) (notify : StatusUpdate → Bool)
    (fuel : Nat) : Option TaskResult :=
  match run_agent_task cfg w notify fuel start_task_register with
  | none => none
  | some r => some ⟨Event.setStatus "starting" :: r.events, r.record, r.escaped, r.syncErr, r.truncated⟩

/-- The cancellation surface `DELETE /tasks/{task_id}` (api_server.py lines
221-228): for any existing task it unconditionally writes status
"cancelling" — it does not check the current status. -/
def cancel_task (record : TaskRec) : TaskRec × Event :=
  (⟨"cancelling", record.step, record.error⟩, Event.setStatus "cancelling")

/-- The statuses written to the registry, in write order. -/
def statusWrites (evs : List Event) : List String :=
  evs.filterMap (fun e => match e with | Event.setStatus s => some s | _ => none)

/-- The error messages written to the registry's error field, in order. -/
def errorWrites (evs : List Event) : List String :=
  evs.filterMap (fun e => match e with | Event.setError m => some m | _ => none)

/-- The status updates sent to the callback endpoint, in order. -/
def notifyUpdates (evs : List Event) : List StatusUpdate :=
  evs.filterMap (fun e => match e with | Event.notify u => some u | _ => none)

/-- The "failed" status updates sent, in order. -/
def failedNotifies (evs : List Event) : List StatusUpdate :=
  (notifyUpdates evs).filter (fun u => u.status == "failed")

/-- The ledger step-entry events (create / complete / fail), in order. -/
def stepLedgerEvents (evs : List Event) : List Event :=
  evs.filter (fun e => match e with
    | Event.addStep _ _ _ _ => true
    | Event.completeStep _ _ _ => true
    | Event.failStep _ _ _ => true
    | _ => false)

/-- The ledger step-entry creations only. -/
def addStepEvents (evs : List Event) : List Event :=
  evs.filter (fun e => match e with | Event.addStep _ _ _ _ => true | _ => false)

/-- Terminal statuses per the spec's data model. -/
def isTerminal (s : String) : Bool :=
  s == "completed" || s == "failed" || s == "cancelled"

/-- Claim C1's mutation discipline: once a terminal status has been written,
no further status write occurs. -/
def noWritesAfterTerminal : List String → Bool
  | [] => true
  | s :: rest => if isTerminal s then rest.isEmpty else noWritesAfterTerminal rest

/-- All registry status-write sequences a (sufficiently fuelled) run can
produce when the ledger store and the final step-info save do not raise:
fast-fail; plain terminal; cancellation observed at a checkpoint; a
pre-loop exception (single failed write from the orchestrator only when the
raise precedes the worker's try block); a worker exception (the worker and
the orchestrator each write "failed"); a cancellation write landing at the
very exit boundary, overwritten by "completed". -/
def observedStatusSeqs : List (List String) :=
  [["starting", "failed"],
   ["starting", "running", "completed"],
   ["starting", "running", "cancelling", "cancelled"],
   ["starting", "running", "failed"],
   ["starting", "running", "failed", "failed"],
   ["starting", "running", "cancelling", "completed"]]

/-- A world in which every MongoDB ledger call site succeeds. -/
def LedgerHealthy (w : World) : Prop :=
  w.create_run_error = none ∧ w.upd_unavail_error = none ∧ w.upd_orch_fail_error = none ∧
  (∀ k, w.add_step_error k = none) ∧ (∀ k, w.complete_step_error k = none) ∧
  w.capsule_stats_init_error = none ∧ (∀ k, w.capsule_stats_shot_error k = none) ∧
  w.upd_cancelled_error = none ∧ w.upd_completed_error = none ∧
  w.upd_failed_sync_error = none ∧ w.fail_step_error = none

/-- A run followed by a later call to the cancellation surface: the DELETE
endpoint applied once the background task has already finished. -/
def cancelAfterRunEvents (cfg : TaskConfig) (w : World) (notify : StatusUpdate → Bool)
    (fuel : Nat) : Option (List Event) :=
  match startAndRun cfg w notify fuel with
  | none => none
  | some r => some (r.events ++ [(cancel_task r.record).2])

/-- The ASCII digit character for `d < 10` (what `%d` formatting emits). -/
def digitChar3 (d : Nat) : Char := Char.ofNat (48 + d)

/-- The three characters of `f"{n:03d}"` for `n < 1000`. -/
def repr3 (n : Nat) : List Char :=
  [digitChar3 (n / 100), digitChar3 (n / 10 % 10), digitChar3 (n % 10)]

/-- A constant-true notifier outcome (callback endpoint always reachable). -/
def notifyOk : StatusUpdate → Bool := fun _ => true

/-- A concrete submitted task: budget 3, callback configured. -/
def demoConfig : TaskConfig :=
  ⟨"run_001", "capsule_001", "https://example.com", "Click the link", [],
   "http://localhost:8081/status", true, 3⟩

/-- Healthy collaborators; the agent returns a fixed action and the
environment reports done after step 2 (the C7 end-to-end stub). -/
def budget3World : World where
  agent_available := true
  mongodb_available := true
  create_run_error := none
  upd_unavail_error := none
  upd_orch_fail_error := none
  add_step_error := fun _ => none
  complete_step_error := fun _ => none
  capsule_stats_init_error := none
  capsule_stats_shot_error := fun _ => none
  upd_cancelled_error := none
  upd_completed_error := none
  upd_failed_sync_error := none
  fail_step_error := none
  prepare_error := none
  init_error := none
  reset_error := none
  done0 := false
  action := fun _ => some "click(42)"
  action_error := fun _ => none
  reasoning := fun _ => none
  screenshot := fun _ => none
  save_error := fun _ => none
  step_error := fun _ => none
  done_after := fun k => k == 2
  final_save_error := none
  final_screenshot := none
  cancel_at := none

/-- Healthy world whose environment is already done after the reset: the
run completes immediately at step 0. -/
def doneNowWorld : World := { budget3World with done0 := true }

/-- Healthy world where the environment reports done after step 1 and the
cancellation surface's write lands during that last step. -/
def cancelLateWorld : World :=
  { budget3World with cancel_at := some 1, done_after := fun k => k == 1 }

/-- Identical to `budget3World` except that the ledger store raises when the
step-1 ledger entry is opened. -/
def ledgerDownWorld : World :=
  { budget3World with
    add_step_error := fun k =>
      if k == 1 then some "ServerSelectionTimeoutError: mongo unreachable" else none }

/-- Healthy world whose agent returns no action at step 1. -/
def truncWorld : World :=
  { budget3World with
    action := fun k => if k == 1 then none else some "click(42)",
    done_after := fun _ => false }

/-- Healthy world whose agent raises `ValueError: boom` at step 1. -/
def crashWorld : World :=
  { budget3World with
    action_error := fun k => if k == 1 then some "ValueError: boom" else none }

/-- World with the agent capability unavailable at submission. -/
def unavailWorld : World := { budget3World with agent_available := false }

/-- A 51-character action string. -/
def c4_long_action : String := "aaaaaaaaaaaaaaaaaaaaaaaaaaaaaaaaaaaaaaaaaaaaaaaaaaa"

/-- The spec of `stepLoop` shared by every claim about the worker: the loop
never touches the registry error field, keeps the step field bounded by the
step counter, never advances past a visible cancellation boundary, sends
only "running" / "cancelled" updates, and writes statuses only at the
cancellation checkpoint ("cancelling" then "cancelled"), at a break-landing
("cancelling") or — when `update_run_status("cancelled")` itself raises —
leaves "cancelled" behind and re-raises. -/
def StepLoopSpec (w : World) (st : SyncSt) (evs : List Event) (st' : SyncSt)
    (ex : LoopExit) : Prop :=
  st'.record.error = st.record.error ∧
  (st.record.step ≤ st.k → st'.record.step ≤ st'.k) ∧
  (∀ c, w.cancel_at = some c → st.k ≤ c → st'.k ≤ c) ∧
  errorWrites evs = [] ∧
  (∀ u ∈ notifyUpdates evs, u.status = "running" ∨ u.status = "cancelled") ∧
  (match ex with
   | LoopExit.cancelledExit =>
       statusWrites evs = ["cancelling", "cancelled"] ∧ st'.record.status = "cancelled"
   | LoopExit.finished _ =>
       (statusWrites evs = [] ∧ st'.record.status = st.record.status) ∨
       (statusWrites evs = ["cancelling"] ∧ st'.record.status = "cancelling")
   | LoopExit.raised _ =>
       (statusWrites evs = [] ∧ st'.record.status = st.record.status) ∨
       (statusWrites evs = ["cancelling", "cancelled"] ∧ st'.record.status = "cancelled" ∧
         ∃ e2, (if w.mongodb_available then w.upd_cancelled_error else none) = some e2))

/-- C9: if the callback endpoint string is empty the notifier send returns
success without entering the network-call block; otherwise it returns `true`
exactly on a 2xx response, and `false` on any transport error or non-2xx
response (both are `httpx.HTTPError`s) or any other exception. The function
is total (both except arms return), so it never raises to its caller. -/
theorem send_status_update_sync_spec (callback_url : String) (net : NetOutcome) :
    (callback_url = "" →
      send_status_update_sync callback_url net = true ∧
      send_performs_request callback_url = false) ∧
    (callback_url ≠ "" →
      (send_status_update_sync callback_url net = true ↔ net = NetOutcome.ok)) := by
  constructor
  · intro h
    subst h
    exact ⟨rfl, by decide⟩
  · intro h
    cases net <;> simp [send_status_update_sync, h]

/-- Witness for `send_status_update_sync_spec` at an empty and a non-empty
endpoint. -/
theorem send_status_update_sync_spec_witness :
    (send_status_update_sync "" NetOutcome.ok = true ∧
      send_performs_request "" = false) ∧
    (send_status_update_sync "http://localhost:8081/status" (NetOutcome.httpError "503") = true ↔
      NetOutcome.httpError "503" = NetOutcome.ok) :=
  ⟨(send_status_update_sync_spec "" NetOutcome.ok).1 rfl,
   (send_status_update_sync_spec "http://localhost:8081/status" (NetOutcome.httpError "503")).2
     (by decide)⟩

/-- C4 counterexample: for the 51-character action `c4_long_action` the
output summary written by `complete_step` has 53 > 50 characters — the code
appends a 3-character ellipsis AFTER taking the first 50 characters, so the
claimed "at most 50 characters" bound fails. -/
theorem step_output_summary_cex :
    c4_long_action.length = 51 ∧
    ¬ ((step_output_summary (some c4_long_action)).length ≤ 50) := by decide

/-- C4 amended: the ledger step entry is closed with status "success" and an
output summary of at most 53 characters (at most `max` the action length and
53); when the action exceeds 50 characters the summary is its first 50
characters followed by the ellipsis "...", hence exactly 53 characters and
ellipsis-suffixed. -/
theorem close_step_summary_spec (step_id a : String) :
    close_step_event step_id (some a) =
      Event.completeStep step_id (step_output_summary (some a)) "success" ∧
    (step_output_summary (some a)).length ≤ max a.length 53 ∧
    (50 < a.length →
      step_output_summary (some a) = String.mk (a.data.take 50) ++ "..." ∧
      (step_output_summary (some a)).length = 53 ∧
      "...".data <:+ (step_output_summary (some a)).data) := by
  have hlen : ∀ l : List Char, (String.mk l ++ "...").length = l.length + 3 := by
    intro l
    rw [String.length_append]
    rfl
  have hnil : ("" : String).length = 0 := rfl
  by_cases h : 50 < a.length
  · have htake : (a.data.take 50).length = 50 := by
      rw [List.length_take]
      have h2 : a.data.length = a.length := rfl
      omega
    have hne : String.mk (a.data.take 50) ++ "..." ≠ "" := by
      intro he
      have h2 := congrArg String.length he
      rw [hlen, hnil] at h2
      omega
    have hsum : step_output_summary (some a) = String.mk (a.data.take 50) ++ "..." := by
      simp [step_output_summary, action_title, h, hne]
    refine ⟨rfl, ?_, fun _ => ⟨hsum, ?_, ?_⟩⟩
    · rw [hsum, hlen, htake]
      omega
    · rw [hsum, hlen, htake]
    · rw [hsum]
      exact ⟨(String.mk (a.data.take 50)).data, (String.data_append _ _).symm⟩
  · have hsum : step_output_summary (some a) = if a = "" then "No action" else a := by
      simp [step_output_summary, action_title, h]
    refine ⟨rfl, ?_, fun hc => absurd hc h⟩
    rw [hsum]
    by_cases ha : a = ""
    · subst ha
      decide
    · rw [if_neg ha]
      exact le_max_left _ _

/-- Witness for `close_step_summary_spec` at the concrete 51-character
action. -/
theorem close_step_summary_spec_witness :
    close_step_event "step_run_001_001" (some c4_long_action) =
      Event.completeStep "step_run_001_001" (step_output_summary (some c4_long_action)) "success" ∧
    (step_output_summary (some c4_long_action)).length = 53 := by
  have h := close_step_summary_spec "step_run_001_001" c4_long_action
  exact ⟨h.1, (h.2.2 (by decide)).2.1⟩

/-- For every index below 1000, `f"{n:03d}"` is the three-digit
zero-padded decimal rendering. -/
theorem pad3_data_eq : ∀ n, n < 1000 → (pad3 n).data = repr3 n := by decide

/-- ASCII digit characters compare like the digits they render. -/
theorem digitChar3_lt_iff :
    ∀ a, a < 10 → ∀ b, b < 10 → (digitChar3 a < digitChar3 b ↔ a < b) := by decide

/-- ASCII digit characters are distinct for distinct digits. -/
theorem digitChar3_inj :
    ∀ a, a < 10 → ∀ b, b < 10 → digitChar3 a = digitChar3 b → a = b := by decide

/-- Three-digit renderings compare lexicographically like the numbers. -/
theorem repr3_lt {m n : Nat} (h : m < n) (hn : n < 1000) :
    List.Lex (· < ·) (repr3 m) (repr3 n) := by
  have h2m : m / 100 < 10 := by omega
  have h2n : n / 100 < 10 := by omega
  have h1m : m / 10 % 10 < 10 := by omega
  have h1n : n / 10 % 10 < 10 := by omega
  have h0m : m % 10 < 10 := by omega
  have h0n : n % 10 < 10 := by omega
  have tri : m / 100 < n / 100 ∨
      (m / 100 = n / 100 ∧ m / 10 % 10 < n / 10 % 10) ∨
      (m / 100 = n / 100 ∧ m / 10 % 10 = n / 10 % 10 ∧ m % 10 < n % 10) := by omega
  rcases tri with h' | ⟨e2, h'⟩ | ⟨e2, e1, h'⟩
  · exact List.Lex.rel ((digitChar3_lt_iff _ h2m _ h2n).2 h')
  · simp only [repr3]
    rw [e2]
    exact List.Lex.cons (List.Lex.rel ((digitChar3_lt_iff _ h1m _ h1n).2 h'))
  · simp only [repr3]
    rw [e2, e1]
    exact List.Lex.cons (List.Lex.cons (List.Lex.rel ((digitChar3_lt_iff _ h0m _ h0n).2 h')))

/-- Three-digit renderings are injective below 1000. -/
theorem repr3_inj {m n : Nat} (hm : m < 1000) (hn : n < 1000)
    (h : repr3 m = repr3 n) : m = n := by
  simp only [repr3, List.cons.injEq, and_true] at h
  obtain ⟨h2, h1, h0⟩ := h
  have e2 := digitChar3_inj _ (by omega) _ (by omega) h2
  have e1 := digitChar3_inj _ (by omega) _ (by omega) h1
  have e0 := digitChar3_inj _ (by omega) _ (by omega) h0
  omega

/-- C5 amended: for one run identifier and step indices `i < j < 1000` the
generated step identifiers are distinct and lexicographically ordered like
the indices. (The zero padding is 3 wide, so the correspondence between
lexical and numeric order stops at index 1000 — see the counterexample.) -/
theorem generate_step_id_sorted (run_id : String) (i j : Nat) (hij : i < j) (hj : j < 1000) :
    generate_step_id run_id i ≠ generate_step_id run_id j ∧
    generate_step_id run_id i < generate_step_id run_id j := by
  have hi : i < 1000 := Nat.lt_trans hij hj
  have hdata : ∀ n : Nat, (generate_step_id run_id n).data =
      ("step_" ++ run_id ++ "_").data ++ (pad3 n).data := by
    intro n
    simp [generate_step_id, String.data_append]
  constructor
  · intro he
    have hd : (pad3 i).data = (pad3 j).data := by
      have h2 := congrArg String.data he
      rw [hdata, hdata] at h2
      exact List.append_cancel_left h2
    rw [pad3_data_eq i hi, pad3_data_eq j hj] at hd
    exact absurd (repr3_inj hi hj hd) (Nat.ne_of_lt hij)
  · apply String.lt_iff_toList_lt.mpr
    show List.Lex (· < ·) (generate_step_id run_id i).data (generate_step_id run_id j).data
    rw [hdata, hdata, pad3_data_eq i hi, pad3_data_eq j hj]
    exact List.Lex.append_left _ (repr3_lt hij hj) _

/-- Witness for `generate_step_id_sorted` at indices 1 < 2. -/
theorem generate_step_id_sorted_witness :
    generate_step_id "run_001" 1 ≠ generate_step_id "run_001" 2 ∧
    generate_step_id "run_001" 1 < generate_step_id "run_001" 2 :=
  generate_step_id_sorted "run_001" 1 2 (by decide) (by decide)

/-- C5 counterexample: at indices 999 < 1000 the generated identifiers
compare the other way around ("step_run_001_1000" < "step_run_001_999"
lexicographically), so lexical order does not match numeric order for all
pairs of indices. -/
theorem generate_step_id_sorted_cex :
    ¬ (generate_step_id "run_001" 999 < generate_step_id "run_001" 1000) :=
  fun h => absurd (String.lt_iff_toList_lt.mp h) (by decide)

/-- C7: the end-to-end budget-3 scenario (agent answers a fixed action at
steps 1 and 2, environment reports done after step 2): exactly 3 ledger step
entries — the synthetic step 0 plus steps 1 and 2 — each created then
completed in index order, registry status writes exactly
`starting, running, completed` in that order, final registry step 2. -/
theorem budget3_run_spec :
    (startAndRun demoConfig budget3World notifyOk 10).map
      (fun r => (stepLedgerEvents r.events, statusWrites r.events, r.record.status, r.record.step)) =
    some
      ([Event.addStep "step_run_001_000" 0 "Navigate to https://example.com" "Open https://example.com",
        Event.completeStep "step_run_001_000" "Page loaded successfully" "success",
        Event.addStep "step_run_001_001" 1 "Step 1: Analyzing page" "Determining next action based on goal",
        Event.completeStep "step_run_001_001" "click(42)" "success",
        Event.addStep "step_run_001_002" 2 "Step 2: Analyzing page" "Determining next action based on goal",
        Event.completeStep "step_run_001_002" "click(42)" "success"],
       ["starting", "running", "completed"], "completed", 2) := by decide

/-- C1 counterexample: after a run that terminates with status "completed",
invoking the cancellation surface (DELETE /tasks/{task_id}) still mutates
the record — it unconditionally writes "cancelling" — so the status-write
sequence continues past a terminal status. -/
theorem no_mutation_after_terminal_cex :
    (cancelAfterRunEvents demoConfig doneNowWorld notifyOk 5).map
      (fun evs => (statusWrites evs, noWritesAfterTerminal (statusWrites evs))) =
    some (["starting", "running", "completed", "cancelling"], false) := by decide

/-- C2 counterexample: an identical run except that the ledger store raises
when the step-1 ledger entry is opened ends "failed" where the healthy run
ends "completed" — the `mongodb.add_step` call inside `run_agent_sync` is
not individually wrapped, so the store exception reaches the worker's
except block and fails the task. -/
theorem collaborator_failure_outcome_cex :
    (startAndRun demoConfig budget3World notifyOk 10).map (fun r => r.record.status) =
      some "completed" ∧
    (startAndRun demoConfig ledgerDownWorld notifyOk 10).map (fun r => r.record.status) =
      some "failed" ∧
    ("completed" : String) ≠ "failed" := by decide

/-- C3 counterexample: cancellation requested while the current step index
is 1 (the write lands during step 1, the last step): the loop exits because
the environment reports done before the next cancellation checkpoint, and
the run terminates "completed", never transitioning to "cancelled". -/
theorem cancel_last_step_cex :
    cancelLateWorld.cancel_at = some 1 ∧
    (startAndRun demoConfig cancelLateWorld notifyOk 10).map
      (fun r => (statusWrites r.events, r.record.status)) =
    some (["starting", "running", "cancelling", "completed"], "completed") ∧
    ("completed" : String) ≠ "cancelled" := by decide

/-- C10 counterexample: when the agent raises `ValueError: boom` at step 1,
the two registry error writes are "Agent error: ValueError: boom" (worker)
then "Agent task failed: ValueError: boom" (orchestrator): the second
message does not contain the first — it re-renders the same exception with
a different prefix rather than wrapping the first error message. -/
theorem double_failure_not_wrapping_cex :
    (startAndRun demoConfig crashWorld notifyOk 10).map (fun r => errorWrites r.events) =
      some ["Agent error: ValueError: boom", "Agent task failed: ValueError: boom"] ∧
    ¬ ("Agent error: ValueError: boom".data <:+: "Agent task failed: ValueError: boom".data) := by
  exact ⟨by decide, by decide⟩

@[simp] theorem statusWrites_nil : statusWrites [] = [] := rfl

@[simp] theorem statusWrites_cons (ev : Event) (l : List Event) :
    statusWrites (ev :: l) =
      (match ev with | Event.setStatus s => [s] | _ => []) ++ statusWrites l := by
  cases ev <;> rfl

@[simp] theorem statusWrites_append (l1 l2 : List Event) :
    statusWrites (l1 ++ l2) = statusWrites l1 ++ statusWrites l2 :=
  List.filterMap_append l1 l2 _

@[simp] theorem errorWrites_nil : errorWrites [] = [] := rfl

@[simp] theorem errorWrites_cons (ev : Event) (l : List Event) :
    errorWrites (ev :: l) =
      (match ev with | Event.setError m => [m] | _ => []) ++ errorWrites l := by
  cases ev <;> rfl

@[simp] theorem errorWrites_append (l1 l2 : List Event) :
    errorWrites (l1 ++ l2) = errorWrites l1 ++ errorWrites l2 :=
  List.filterMap_append l1 l2 _

@[simp] theorem notifyUpdates_nil : notifyUpdates [] = [] := rfl

@[simp] theorem notifyUpdates_cons (ev : Event) (l : List Event) :
    notifyUpdates (ev :: l) =
      (match ev with | Event.notify u => [u] | _ => []) ++ notifyUpdates l := by
  cases ev <;> rfl

@[simp] theorem notifyUpdates_append (l1 l2 : List Event) :
    notifyUpdates (l1 ++ l2) = notifyUpdates l1 ++ notifyUpdates l2 :=
  List.filterMap_append l1 l2 _

@[simp] theorem addStepEvents_nil : addStepEvents [] = [] := rfl

@[simp] theorem addStepEvents_cons (ev : Event) (l : List Event) :
    addStepEvents (ev :: l) =
      (match ev with | Event.addStep a b c d => [Event.addStep a b c d] | _ => []) ++
        addStepEvents l := by
  cases ev <;> rfl

@[simp] theorem addStepEvents_append (l1 l2 : List Event) :
    addStepEvents (l1 ++ l2) = addStepEvents l1 ++ addStepEvents l2 :=
  List.filter_append l1 l2

@[simp] theorem statusWrites_ite (c : Prop) [Decidable c] (l1 l2 : List Event) :
    statusWrites (if c then l1 else l2) = if c then statusWrites l1 else statusWrites l2 :=
  apply_ite statusWrites c l1 l2

@[simp] theorem errorWrites_ite (c : Prop) [Decidable c] (l1 l2 : List Event) :
    errorWrites (if c then l1 else l2) = if c then errorWrites l1 else errorWrites l2 :=
  apply_ite errorWrites c l1 l2

@[simp] theorem notifyUpdates_ite (c : Prop) [Decidable c] (l1 l2 : List Event) :
    notifyUpdates (if c then l1 else l2) = if c then notifyUpdates l1 else notifyUpdates l2 :=
  apply_ite notifyUpdates c l1 l2

@[simp] theorem addStepEvents_ite (c : Prop) [Decidable c] (l1 l2 : List Event) :
    addStepEvents (if c then l1 else l2) = if c then addStepEvents l1 else addStepEvents l2 :=
  apply_ite addStepEvents c l1 l2

/-- Everything one loop iteration can do: the step index advances by one, the
registry error field is untouched, no error write and no non-"running"
notification is emitted, the registry step field is either untouched or set
to the new index, and a status write occurs only on the no-action break when
a cancellation write lands there (writing "cancelling"). -/
theorem stepIter_spec (cfg : TaskConfig) (w : World) (notify : StatusUpdate → Bool) (st : SyncSt) :
    (stepIter cfg w notify st).state.record.error = st.record.error ∧
    (stepIter cfg w notify st).state.k = st.k + 1 ∧
    ((stepIter cfg w notify st).state.record.step = st.record.step ∨
      (stepIter cfg w notify st).state.record.step = st.k + 1) ∧
    errorWrites (stepIter cfg w notify st).events = [] ∧
    (∀ u ∈ notifyUpdates (stepIter cfg w notify st).events, u.status = "running") ∧
    ((statusWrites (stepIter cfg w notify st).events = [] ∧
       (stepIter cfg w notify st).state.record.status = st.record.status) ∨
     (statusWrites (stepIter cfg w notify st).events = ["cancelling"] ∧
       (stepIter cfg w notify st).state.record.status = "cancelling" ∧
       (∃ evs st1, stepIter cfg w notify st = IterOut.brk evs st1))) := by
  rcases hout : stepIter cfg w notify st with ⟨evs, st1, e⟩ | ⟨evs, st1⟩ | ⟨evs, st1, d⟩ <;>
    simp only [IterOut.state, IterOut.events] <;>
    by_cases hm : w.mongodb_available <;>
      simp only [stepIter, stepIter.stepIterTail, hm, if_true, if_false] at hout <;>
      repeat' split at hout <;>
      (try simp only [IterOut.raise.injEq, IterOut.brk.injEq, IterOut.next.injEq] at hout) <;>
      (try obtain ⟨rfl, rfl, rfl⟩ := hout) <;>
      (try simp_all [runningUpdate, close_step_event])

theorem cancelLanded_false {w : World} {k c : Nat} (h : ¬ cancelLanded w k = true)
    (hc : w.cancel_at = some c) : k < c := by
  rw [Bool.not_eq_true, cancelLanded, hc] at h
  simp only [decide_eq_false_iff_not, not_le] at h
  exact h


theorem stepLoop_done_spec (cfg : TaskConfig) (w : World) (notify : StatusUpdate → Bool)
    (fuel : Nat) (st : SyncSt) (evs : List Event) (st' : SyncSt) (ex : LoopExit)
    (h : stepLoop cfg w notify fuel true st = some (evs, st', ex)) :
    StepLoopSpec w st evs st' ex := by
  by_cases hc : cancelLanded w st.k = true <;>
    simp only [stepLoop, hc, Bool.not_eq_true, if_true, if_false,
      Option.some.injEq, Prod.mk.injEq] at h <;>
    obtain ⟨rfl, rfl, rfl⟩ := h <;>
    simp_all [StepLoopSpec]

theorem stepLoop_spec (cfg : TaskConfig) (w : World) (notify : StatusUpdate → Bool) :
    ∀ fuel d st evs st' ex, stepLoop cfg w notify fuel d st = some (evs, st', ex) →
      StepLoopSpec w st evs st' ex := by
  intro fuel
  induction fuel with
  | zero =>
    intro d st evs st' ex h
    cases d
    · exact absurd h (by simp [stepLoop])
    · exact stepLoop_done_spec cfg w notify 0 st evs st' ex h
  | succ f ih =>
    intro d st evs st' ex h
    cases d
    case true => exact stepLoop_done_spec cfg w notify (f + 1) st evs st' ex h
    case false =>
      by_cases hc : cancelLanded w st.k = true
      · -- the cancellation checkpoint fires
        simp only [stepLoop, hc, if_true] at h
        rcases hu : (if w.mongodb_available then w.upd_cancelled_error else none) with _ | e2 <;>
          simp only [hu, Option.some.injEq, Prod.mk.injEq] at h <;>
          obtain ⟨rfl, rfl, rfl⟩ := h <;>
          simp_all [StepLoopSpec]
      · -- one iteration then the rest of the loop
        simp only [stepLoop, hc, Bool.not_eq_true, if_false] at h
        have hspec := stepIter_spec cfg w notify st
        rcases hit : stepIter cfg w notify st with ⟨evs1, st1, e1⟩ | ⟨evs1, st1⟩ | ⟨evs1, st1, d1⟩ <;>
          simp only [hit] at h hspec <;>
          simp only [IterOut.state, IterOut.events] at hspec
        · -- the iteration raised
          simp at h
          obtain ⟨rfl, rfl, rfl⟩ := h
          obtain ⟨he, hk, hstep, herr, hnot, hdisj⟩ := hspec
          refine ⟨he, ?_, ?_, herr, fun u hu => Or.inl (hnot u hu), ?_⟩
          · intro hs
            rcases hstep with h1 | h1 <;> omega
          · intro c hcc hle
            have := cancelLanded_false hc hcc
            omega
          · rcases hdisj with h1 | ⟨_, _, evsB, stB, hbrk⟩
            · exact Or.inl h1
            · exact absurd hbrk (by simp)
        · -- the iteration broke out (no action): loop exits truncated
          simp at h
          obtain ⟨rfl, rfl, rfl⟩ := h
          obtain ⟨he, hk, hstep, herr, hnot, hdisj⟩ := hspec
          refine ⟨he, ?_, ?_, herr, fun u hu => Or.inl (hnot u hu), ?_⟩
          · intro hs
            rcases hstep with h1 | h1 <;> omega
          · intro c hcc hle
            have := cancelLanded_false hc hcc
            omega
          · rcases hdisj with h1 | ⟨h1, h2, _⟩
            · exact Or.inl h1
            · exact Or.inr ⟨h1, h2⟩
        · -- the iteration continued: recurse
          obtain ⟨he, hk, hstep, herr, hnot, hdisj⟩ := hspec
          rcases hdisj with ⟨hsw1, hst1⟩ | ⟨_, _, evs3, st3, hbrk⟩
          swap
          · exact absurd hbrk (by simp)
          rcases hrec : stepLoop cfg w notify f d1 st1 with _ | ⟨evs2, st2, ex2⟩
          · rw [hrec] at h
            simp at h
          · rw [hrec] at h
            simp at h
            obtain ⟨rfl, rfl, rfl⟩ := h
            obtain ⟨ihe, ihstep, ihbound, iherr, ihnot, ihmatch⟩ := ih d1 st1 evs2 st2 ex2 hrec
            refine ⟨by rw [ihe, he], ?_, ?_, by simp [herr, iherr], ?_, ?_⟩
            · intro hs
              apply ihstep
              rcases hstep with h1 | h1 <;> omega
            · intro c hcc hle
              have := cancelLanded_false hc hcc
              exact ihbound c hcc (by omega)
            · intro u hu
              rw [notifyUpdates_append] at hu
              rcases List.mem_append.1 hu with h1 | h1
              · exact Or.inl (hnot u h1)
              · exact ihnot u h1
            · rw [statusWrites_append, hsw1, List.nil_append]
              cases ex2 with
              | finished tr =>
                rcases ihmatch with ⟨h1, h2⟩ | ⟨h1, h2⟩
                · exact Or.inl ⟨h1, by rw [h2, hst1]⟩
                · exact Or.inr ⟨h1, h2⟩
              | cancelledExit => exact ⟨ihmatch.1, ihmatch.2⟩
              | raised e =>
                rcases ihmatch with ⟨h1, h2⟩ | ⟨h1, h2, h3⟩
                · exact Or.inl ⟨h1, by rw [h2, hst1]⟩
                · exact Or.inr ⟨h1, h2, h3⟩

theorem failedFilter_nil {l : List StatusUpdate} (h : ∀ u ∈ l, u.status ≠ "failed") :
    l.filter (fun u => u.status == "failed") = [] := by
  rw [List.filter_eq_nil_iff]
  intro a ha
  simpa using h a ha

theorem syncExceptBlock_spec (cfg : TaskConfig) (w : World) (notify : StatusUpdate → Bool)
    (evs0 : List Event) (record : TaskRec) (sid : Option String) (tr : Bool) (e : String)
    (huf : w.upd_failed_sync_error = none) (hfsp : w.fail_step_error = none) :
    (syncExceptBlock cfg w notify evs0 record sid tr e).record =
      ⟨"failed", record.step, some ("Agent error: " ++ e)⟩ ∧
    (syncExceptBlock cfg w notify evs0 record sid tr e).outcome = Except.error e ∧
    (syncExceptBlock cfg w notify evs0 record sid tr e).truncated = tr ∧
    statusWrites (syncExceptBlock cfg w notify evs0 record sid tr e).events =
      statusWrites evs0 ++ ["failed"] ∧
    errorWrites (syncExceptBlock cfg w notify evs0 record sid tr e).events =
      errorWrites evs0 ++ ["Agent error: " ++ e] ∧
    notifyUpdates (syncExceptBlock cfg w notify evs0 record sid tr e).events =
      notifyUpdates evs0 ++ [failedUpdate cfg record.step ("Agent error: " ++ e)] := by
  by_cases hm : w.mongodb_available <;>
    simp only [syncExceptBlock, hm, huf, hfsp, if_true, if_false] <;>
    rcases sid with _ | sv <;>
    simp [failedUpdate]

theorem syncExceptBlock_record (cfg : TaskConfig) (w : World) (notify : StatusUpdate → Bool)
    (evs0 : List Event) (record : TaskRec) (sid : Option String) (tr : Bool) (e : String) :
    (syncExceptBlock cfg w notify evs0 record sid tr e).record.status = "failed" ∧
    (syncExceptBlock cfg w notify evs0 record sid tr e).record.step = record.step ∧
    (syncExceptBlock cfg w notify evs0 record sid tr e).truncated = tr ∧
    (∃ e2, (syncExceptBlock cfg w notify evs0 record sid tr e).outcome = Except.error e2) := by
  unfold syncExceptBlock
  refine ⟨?_, ?_, ?_, ?_⟩ <;> (repeat' split) <;> simp

/-- Unconditional facts about a finished worker call: on a normal outcome
the registry ends "completed" or "cancelled"; on an exception outcome the
registry ends "failed" or (when the raise happened before the try block)
untouched; and the registry step index never passes a visible cancellation
boundary when the record starts at step 0. -/
theorem run_agent_sync_record (cfg : TaskConfig) (w : World) (notify : StatusUpdate → Bool)
    (fuel : Nat) (rec0 : TaskRec) (s : SyncResult)
    (h : run_agent_sync cfg w notify fuel rec0 = some s) :
    ((s.outcome = Except.ok () ∧ (s.record.status = "completed" ∨ s.record.status = "cancelled")) ∨
      ((∃ e, s.outcome = Except.error e) ∧ (s.record.status = "failed" ∨ s.record = rec0))) ∧
    (rec0.step = 0 → ∀ c, w.cancel_at = some c → s.record.step ≤ c) := by
  have hloop : ∀ evs0 st sr, runSyncLoop cfg w notify fuel evs0 st = some sr →
      ((sr.outcome = Except.ok () ∧
          (sr.record.status = "completed" ∨ sr.record.status = "cancelled")) ∨
        ((∃ e, sr.outcome = Except.error e) ∧ (sr.record.status = "failed" ∨ sr.record = rec0))) ∧
      (st.record.step = 0 → st.k = 0 → ∀ c, w.cancel_at = some c → sr.record.step ≤ c) := by
    intro evs0 st sr hrun
    rcases hL : stepLoop cfg w notify fuel w.done0 st with _ | ⟨levs, st', ex⟩
    · simp [runSyncLoop, hL] at hrun
    obtain ⟨he', hstep', hbound', herr', hnot', hmatch'⟩ := stepLoop_spec cfg w notify fuel _ _ _ _ _ hL
    simp only [runSyncLoop, hL] at hrun
    cases ex with
    | raised e1 =>
      simp only [Option.some.injEq] at hrun
      subst hrun
      obtain ⟨h1, h2, h3, h4⟩ :=
        syncExceptBlock_record cfg w notify (evs0 ++ levs) st'.record st'.stepId false e1
      refine ⟨Or.inr ⟨h4, Or.inl h1⟩, ?_⟩
      intro hs0 hk0 c hc
      rw [h2]
      exact le_trans (hstep' (by omega)) (hbound' c hc (by omega))
    | cancelledExit =>
      simp only [Option.some.injEq] at hrun
      subst hrun
      refine ⟨Or.inl ⟨rfl, Or.inr hmatch'.2⟩, ?_⟩
      intro hs0 hk0 c hc
      exact le_trans (hstep' (by omega)) (hbound' c hc (by omega))
    | finished tr =>
      rcases hu : (if w.mongodb_available then w.upd_completed_error else none) with _ | e1 <;>
        simp only [hu] at hrun
      · rcases hf : w.final_save_error with _ | e2 <;> simp only [hf] at hrun <;>
          simp only [Option.some.injEq] at hrun <;> subst hrun
        · refine ⟨Or.inl ⟨rfl, Or.inl rfl⟩, ?_⟩
          intro hs0 hk0 c hc
          exact hbound' c hc (by omega)
        · obtain ⟨h1, h2, h3, h4⟩ := syncExceptBlock_record cfg w notify _ _ st'.stepId tr e2
          refine ⟨Or.inr ⟨h4, Or.inl h1⟩, ?_⟩
          intro hs0 hk0 c hc
          rw [h2]
          exact hbound' c hc (by omega)
      · simp only [Option.some.injEq] at hrun
        subst hrun
        obtain ⟨h1, h2, h3, h4⟩ := syncExceptBlock_record cfg w notify _ _ st'.stepId tr e1
        refine ⟨Or.inr ⟨h4, Or.inl h1⟩, ?_⟩
        intro hs0 hk0 c hc
        rw [h2]
        exact hbound' c hc (by omega)
  unfold run_agent_sync at h
  rcases hp : w.prepare_error with _ | e <;> simp only [hp] at h
  swap
  · simp only [Option.some.injEq] at h
    subst h
    exact ⟨Or.inr ⟨⟨e, rfl⟩, Or.inr rfl⟩, fun h0 c hc => by simp [h0]⟩
  rcases hi : w.init_error with _ | e <;> simp only [hi] at h
  swap
  · simp only [Option.some.injEq] at h
    subst h
    obtain ⟨h1, h2, h3, h4⟩ := syncExceptBlock_record cfg w notify [] rec0 none false e
    exact ⟨Or.inr ⟨h4, Or.inl h1⟩, fun h0 c hc => by rw [h2, h0]; omega⟩
  rcases hr : w.reset_error with _ | e <;> simp only [hr] at h
  swap
  · simp only [Option.some.injEq] at h
    subst h
    obtain ⟨h1, h2, h3, h4⟩ := syncExceptBlock_record cfg w notify [] rec0 none false e
    exact ⟨Or.inr ⟨h4, Or.inl h1⟩, fun h0 c hc => by rw [h2, h0]; omega⟩
  by_cases hm : w.mongodb_available <;> simp only [hm, if_true, if_false] at h
  · rcases ha : w.add_step_error 0 with _ | e <;> simp only [ha] at h
    swap
    · simp only [Option.some.injEq] at h
      subst h
      obtain ⟨h1, h2, h3, h4⟩ := syncExceptBlock_record cfg w notify [] rec0 _ false e
      exact ⟨Or.inr ⟨h4, Or.inl h1⟩, fun h0 c hc => by rw [h2, h0]; omega⟩
    rcases hcp : w.complete_step_error 0 with _ | e <;> simp only [hcp] at h
    swap
    · simp only [Option.some.injEq] at h
      subst h
      obtain ⟨h1, h2, h3, h4⟩ := syncExceptBlock_record cfg w notify _ rec0 _ false e
      exact ⟨Or.inr ⟨h4, Or.inl h1⟩, fun h0 c hc => by rw [h2, h0]; omega⟩
    rcases hci : w.capsule_stats_init_error with _ | e <;> simp only [hci] at h
    swap
    · simp only [Option.some.injEq] at h
      subst h
      obtain ⟨h1, h2, h3, h4⟩ := syncExceptBlock_record cfg w notify _ rec0 _ false e
      exact ⟨Or.inr ⟨h4, Or.inl h1⟩, fun h0 c hc => by rw [h2, h0]; omega⟩
    obtain ⟨hA, hB⟩ := hloop _ _ _ h
    exact ⟨hA, fun h0 c hc => hB h0 rfl c hc⟩
  · obtain ⟨hA, hB⟩ := hloop _ _ _ h
    exact ⟨hA, fun h0 c hc => hB h0 rfl c hc⟩

theorem createRunEvents_benign (w : World) :
    statusWrites (createRunEvents w) = [] ∧ errorWrites (createRunEvents w) = [] ∧
    notifyUpdates (createRunEvents w) = [] ∧ addStepEvents (createRunEvents w) = [] := by
  unfold createRunEvents
  refine ⟨?_, ?_, ?_, ?_⟩ <;> (repeat' split) <;> rfl

/-- The healthy-collaborator behaviour of the step loop plus epilogue: a
normal outcome writes "completed" (possibly preceded by a landed
"cancelling") or "cancelling"/"cancelled", and only the worker's except
block produces a "failed" write, error write and failed notification. -/
theorem runSyncLoop_healthy (cfg : TaskConfig) (w : World) (notify : StatusUpdate → Bool)
    (fuel : Nat) (evs0 : List Event) (st : SyncSt) (s : SyncResult)
    (hl : LedgerHealthy w) (hfs : w.final_save_error = none)
    (h0s : statusWrites evs0 = []) (h0e : errorWrites evs0 = []) (h0n : notifyUpdates evs0 = [])
    (h : runSyncLoop cfg w notify fuel evs0 st = some s) :
    (s.outcome = Except.ok () ∧ errorWrites s.events = [] ∧
       (∀ u ∈ notifyUpdates s.events, u.status ≠ "failed") ∧
       ((statusWrites s.events = ["completed"] ∧ s.record.status = "completed") ∨
        (statusWrites s.events = ["cancelling", "completed"] ∧ s.record.status = "completed") ∨
        (statusWrites s.events = ["cancelling", "cancelled"] ∧ s.record.status = "cancelled" ∧
          s.truncated = false)) ∧
       (s.truncated = true → s.record.status = "completed")) ∨
    (∃ e, s.outcome = Except.error e ∧ s.truncated = false ∧
       statusWrites s.events = ["failed"] ∧
       errorWrites s.events = ["Agent error: " ++ e] ∧
       (notifyUpdates s.events).filter (fun u => u.status == "failed") =
         [failedUpdate cfg s.record.step ("Agent error: " ++ e)] ∧
       s.record.status = "failed") := by
  obtain ⟨hcr, hWu, hWo, hAdd, hCmp, hCi, hCs, hUc, hUcm, hUf, hFs⟩ := hl
  rcases hL : stepLoop cfg w notify fuel w.done0 st with _ | ⟨levs, st', ex⟩
  · simp [runSyncLoop, hL] at h
  obtain ⟨he', hstep', hbound', herr', hnot', hmatch'⟩ := stepLoop_spec cfg w notify fuel _ _ _ _ _ hL
  simp only [runSyncLoop, hL] at h
  have hucnone : (if w.mongodb_available then w.upd_cancelled_error else none) = none := by
    by_cases hm : w.mongodb_available <;> simp [hm, hUc]
  have hucmnone : (if w.mongodb_available then w.upd_completed_error else none) = none := by
    by_cases hm : w.mongodb_available <;> simp [hm, hUcm]
  cases ex with
  | raised e1 =>
    replace hmatch' : (statusWrites levs = [] ∧ st'.record.status = st.record.status) ∨
        (statusWrites levs = ["cancelling", "cancelled"] ∧ st'.record.status = "cancelled" ∧
          ∃ e2, (if w.mongodb_available then w.upd_cancelled_error else none) = some e2) := hmatch'
    simp only [Option.some.injEq] at h
    subst h
    have hlev : statusWrites levs = [] ∧ st'.record.status = st.record.status := by
      rcases hmatch' with h1 | ⟨_, _, e2, habs⟩
      · exact h1
      · rw [hucnone] at habs
        exact absurd habs (by simp)
    obtain ⟨hrec, hout, htr, hsw, hew, hnu⟩ :=
      syncExceptBlock_spec cfg w notify (evs0 ++ levs) st'.record st'.stepId false e1 hUf hFs
    refine Or.inr ⟨e1, hout, htr, ?_, ?_, ?_, by rw [hrec]⟩
    · rw [hsw, statusWrites_append, h0s, hlev.1]
      rfl
    · rw [hew, errorWrites_append, h0e, herr']
      rfl
    · rw [hnu, List.filter_append]
      rw [failedFilter_nil (l := notifyUpdates (evs0 ++ levs)) ?_]
      · rw [hrec]
        simp [failedUpdate]
      · intro u hu
        rw [notifyUpdates_append, h0n, List.nil_append] at hu
        rcases hnot' u hu with h1 | h1 <;> simp [h1]
  | cancelledExit =>
    replace hmatch' : statusWrites levs = ["cancelling", "cancelled"] ∧
        st'.record.status = "cancelled" := hmatch'
    simp only [Option.some.injEq] at h
    subst h
    refine Or.inl ⟨rfl, ?_, ?_, ?_, ?_⟩
    · rw [errorWrites_append, h0e, herr']
      rfl
    · intro u hu
      rw [notifyUpdates_append, h0n, List.nil_append] at hu
      rcases hnot' u hu with h1 | h1 <;> simp [h1]
    · refine Or.inr (Or.inr ⟨?_, hmatch'.2, rfl⟩)
      rw [statusWrites_append, h0s, hmatch'.1]
      rfl
    · intro htr
      simp at htr
  | finished tr =>
    replace hmatch' : (statusWrites levs = [] ∧ st'.record.status = st.record.status) ∨
        (statusWrites levs = ["cancelling"] ∧ st'.record.status = "cancelling") := hmatch'
    rw [hucmnone] at h
    simp only [hfs, Option.some.injEq] at h
    subst h
    refine Or.inl ⟨rfl, ?_, ?_, ?_, fun _ => rfl⟩
    · simp [h0e, herr']
    · intro u hu
      simp only [notifyUpdates_append, notifyUpdates_ite, notifyUpdates_cons, notifyUpdates_nil,
        h0n, List.append_nil, List.nil_append, ite_self, List.mem_append,
        List.mem_singleton] at hu
      rcases hu with hu | hu
      · rcases hnot' u hu with h1 | h1 <;> simp [h1]
      · simp [hu]
    · rcases hmatch' with ⟨h1, _⟩ | ⟨h1, _⟩
      · refine Or.inl ⟨?_, rfl⟩
        simp [h0s, h1]
      · refine Or.inr (Or.inl ⟨?_, rfl⟩)
        simp [h0s, h1]

/-- The healthy-collaborator behaviour of `run_agent_sync`: a normal outcome
ends "completed" or "cancelled" with no failed write anywhere; an exception
outcome is either the pre-try `prepare` raise (no worker bookkeeping at all)
or carries exactly one worker-side "failed" status write, one error write
"Agent error: e" and one failed notification. -/
theorem run_agent_sync_healthy (cfg : TaskConfig) (w : World) (notify : StatusUpdate → Bool)
    (fuel : Nat) (rec0 : TaskRec) (s : SyncResult)
    (hl : LedgerHealthy w) (hfs : w.final_save_error = none)
    (h : run_agent_sync cfg w notify fuel rec0 = some s) :
    (s.outcome = Except.ok () ∧ errorWrites s.events = [] ∧
       (∀ u ∈ notifyUpdates s.events, u.status ≠ "failed") ∧
       ((statusWrites s.events = ["completed"] ∧ s.record.status = "completed") ∨
        (statusWrites s.events = ["cancelling", "completed"] ∧ s.record.status = "completed") ∨
        (statusWrites s.events = ["cancelling", "cancelled"] ∧ s.record.status = "cancelled" ∧
          s.truncated = false)) ∧
       (s.truncated = true → s.record.status = "completed")) ∨
    (∃ e, s.outcome = Except.error e ∧ s.truncated = false ∧
       ((s.events = [] ∧ w.prepare_error = some e) ∨
        (statusWrites s.events = ["failed"] ∧
         errorWrites s.events = ["Agent error: " ++ e] ∧
         (notifyUpdates s.events).filter (fun u => u.status == "failed") =
           [failedUpdate cfg s.record.step ("Agent error: " ++ e)] ∧
         s.record.status = "failed"))) := by
  obtain ⟨hcr, hWu, hWo, hAdd, hCmp, hCi, hCs, hUc, hUcm, hUf, hFs⟩ := hl
  have hexc : ∀ (evsp : List Event) (rc : TaskRec) (sid : Option String) (e1 : String),
      statusWrites evsp = [] → errorWrites evsp = [] → notifyUpdates evsp = [] →
      (syncExceptBlock cfg w notify evsp rc sid false e1).outcome = Except.error e1 ∧
      (syncExceptBlock cfg w notify evsp rc sid false e1).truncated = false ∧
      statusWrites (syncExceptBlock cfg w notify evsp rc sid false e1).events = ["failed"] ∧
      errorWrites (syncExceptBlock cfg w notify evsp rc sid false e1).events =
        ["Agent error: " ++ e1] ∧
      (notifyUpdates (syncExceptBlock cfg w notify evsp rc sid false e1).events).filter
          (fun u => u.status == "failed") =
        [failedUpdate cfg (syncExceptBlock cfg w notify evsp rc sid false e1).record.step
          ("Agent error: " ++ e1)] ∧
      (syncExceptBlock cfg w notify evsp rc sid false e1).record.status = "failed" := by
    intro evsp rc sid e1 hs he hn
    obtain ⟨hrec, hout, htr, hsw, hew, hnu⟩ :=
      syncExceptBlock_spec cfg w notify evsp rc sid false e1 hUf hFs
    refine ⟨hout, htr, ?_, ?_, ?_, by rw [hrec]⟩
    · rw [hsw, hs]
      rfl
    · rw [hew, he]
      rfl
    · rw [hnu, hn, List.nil_append, hrec]
      simp [failedUpdate]
  unfold run_agent_sync at h
  rcases hp : w.prepare_error with _ | e <;> simp only [hp] at h
  swap
  · simp only [Option.some.injEq] at h
    subst h
    exact Or.inr ⟨e, rfl, rfl, Or.inl ⟨rfl, rfl⟩⟩
  rcases hi : w.init_error with _ | e <;> simp only [hi] at h
  swap
  · simp only [Option.some.injEq] at h
    subst h
    obtain ⟨x1, x2, x3, x4, x5, x6⟩ := hexc [] rec0 none e rfl rfl rfl
    exact Or.inr ⟨e, x1, x2, Or.inr ⟨x3, x4, x5, x6⟩⟩
  rcases hr : w.reset_error with _ | e <;> simp only [hr] at h
  swap
  · simp only [Option.some.injEq] at h
    subst h
    obtain ⟨x1, x2, x3, x4, x5, x6⟩ := hexc [] rec0 none e rfl rfl rfl
    exact Or.inr ⟨e, x1, x2, Or.inr ⟨x3, x4, x5, x6⟩⟩
  by_cases hm : w.mongodb_available <;> simp only [hm, if_true, if_false] at h
  · simp only [hAdd, hCmp, hCi] at h
    rcases runSyncLoop_healthy cfg w notify fuel _ _ s
        ⟨hcr, hWu, hWo, hAdd, hCmp, hCi, hCs, hUc, hUcm, hUf, hFs⟩ hfs (by rfl) (by rfl) (by rfl) h
      with hok | ⟨e, h1, h2, h3, h4, h5, h6⟩
    · exact Or.inl hok
    · exact Or.inr ⟨e, h1, h2, Or.inr ⟨h3, h4, h5, h6⟩⟩
  · rcases runSyncLoop_healthy cfg w notify fuel _ _ s
        ⟨hcr, hWu, hWo, hAdd, hCmp, hCi, hCs, hUc, hUcm, hUf, hFs⟩ hfs (by rfl) (by rfl) (by rfl) h
      with hok | ⟨e, h1, h2, h3, h4, h5, h6⟩
    · exact Or.inl hok
    · exact Or.inr ⟨e, h1, h2, Or.inr ⟨h3, h4, h5, h6⟩⟩

/-- Unconditional facts about a finished orchestrator call: the final
registry status is terminal, and the registry step index never passes a
visible cancellation boundary. -/
theorem run_agent_task_record (cfg : TaskConfig) (w : World) (notify : StatusUpdate → Bool)
    (fuel : Nat) (rec0 : TaskRec) (r : TaskResult)
    (h : run_agent_task cfg w notify fuel rec0 = some r) :
    (r.record.status = "failed" ∨ r.record.status = "completed" ∨ r.record.status = "cancelled") ∧
    (rec0.step = 0 → ∀ c, w.cancel_at = some c → r.record.step ≤ c) := by
  unfold run_agent_task at h
  by_cases ha : w.agent_available <;>
    simp only [ha, Bool.false_eq_true, if_true, if_false] at h
  · rcases hs : run_agent_sync cfg w notify fuel ⟨"running", rec0.step, rec0.error⟩ with _ | sv
    · rw [hs] at h
      simp at h
    · rw [hs] at h
      obtain ⟨hA, hB⟩ := run_agent_sync_record cfg w notify fuel _ sv hs
      cases houtc : sv.outcome with
      | ok u =>
        simp only [houtc, Option.some.injEq] at h
        subst h
        rcases hA with ⟨_, hst⟩ | ⟨⟨e, herr2⟩, _⟩
        · refine ⟨Or.inr hst, ?_⟩
          intro h0 c hc
          exact hB h0 c hc
        · rw [houtc] at herr2
          exact absurd herr2 (by simp)
      | error e =>
        simp only [houtc] at h
        rcases hu2 : (if w.mongodb_available then w.upd_orch_fail_error else none) with _ | e2 <;>
          simp only [hu2, Option.some.injEq] at h <;>
          subst h <;>
          exact ⟨Or.inl rfl, fun h0 c hc => hB h0 c hc⟩
  · rcases hu2 : (if w.mongodb_available then w.upd_unavail_error else none) with _ | e <;>
      simp only [hu2, Option.some.injEq] at h <;>
      subst h <;>
      exact ⟨Or.inl rfl, fun h0 c hc => by simp [h0]⟩

/-- The healthy-collaborator behaviour of the whole orchestrated run: the
three terminal shapes (fast-fail, normal, worker exception) with their
exact status writes, error writes and failed notifications. -/
theorem run_agent_task_healthy (cfg : TaskConfig) (w : World) (notify : StatusUpdate → Bool)
    (fuel : Nat) (rec0 : TaskRec) (r : TaskResult)
    (hl : LedgerHealthy w) (hfs : w.final_save_error = none)
    (h : run_agent_task cfg w notify fuel rec0 = some r) :
    (w.agent_available = false ∧ statusWrites r.events = ["failed"] ∧ r.truncated = false ∧
      r.syncErr = none ∧ errorWrites r.events = [agent_unavailable_msg] ∧
      notifyUpdates r.events = [failedUpdate cfg 0 agent_unavailable_msg] ∧
      addStepEvents r.events = [] ∧
      r.record.status = "failed" ∧ r.record.error = some agent_unavailable_msg) ∨
    (w.agent_available = true ∧ r.syncErr = none ∧ errorWrites r.events = [] ∧
      ((statusWrites r.events = ["running", "completed"] ∧ r.record.status = "completed") ∨
       (statusWrites r.events = ["running", "cancelling", "completed"] ∧
         r.record.status = "completed") ∨
       (statusWrites r.events = ["running", "cancelling", "cancelled"] ∧
         r.record.status = "cancelled" ∧ r.truncated = false)) ∧
      (r.truncated = true → r.record.status = "completed") ∧
      (notifyUpdates r.events).filter (fun u => u.status == "failed") = []) ∨
    (∃ e, w.agent_available = true ∧ r.syncErr = some e ∧ r.truncated = false ∧
      ((w.prepare_error = some e ∧ statusWrites r.events = ["running", "failed"] ∧
        errorWrites r.events = ["Agent task failed: " ++ e] ∧
        (notifyUpdates r.events).filter (fun u => u.status == "failed") =
          [failedUpdate cfg r.record.step ("Agent task failed: " ++ e)]) ∨
       (statusWrites r.events = ["running", "failed", "failed"] ∧
        errorWrites r.events = ["Agent error: " ++ e, "Agent task failed: " ++ e] ∧
        (notifyUpdates r.events).filter (fun u => u.status == "failed") =
          [failedUpdate cfg r.record.step ("Agent error: " ++ e),
           failedUpdate cfg r.record.step ("Agent task failed: " ++ e)]))) := by
  obtain ⟨hbs, hbe, hbn, hba⟩ := createRunEvents_benign w
  have hWu := hl.2.1
  have hWo := hl.2.2.1
  unfold run_agent_task at h
  by_cases ha : w.agent_available <;>
    simp only [ha, Bool.false_eq_true, if_true, if_false] at h
  · rcases hs : run_agent_sync cfg w notify fuel ⟨"running", rec0.step, rec0.error⟩ with _ | sv
    · rw [hs] at h
      simp at h
    · rw [hs] at h
      have hsync := run_agent_sync_healthy cfg w notify fuel _ sv hl hfs hs
      cases houtc : sv.outcome with
      | ok u =>
        simp only [houtc, Option.some.injEq] at h
        subst h
        rcases hsync with ⟨_, hse, hsn, hsw, htr⟩ | ⟨e, herr2, _⟩
        · refine Or.inr (Or.inl ⟨ha, rfl, ?_, ?_, htr, ?_⟩)
          · simp [hbe, hse]
          · rcases hsw with ⟨h1, h2⟩ | ⟨h1, h2⟩ | ⟨h1, h2, h3⟩
            · exact Or.inl ⟨by simp [hbs, h1], h2⟩
            · exact Or.inr (Or.inl ⟨by simp [hbs, h1], h2⟩)
            · exact Or.inr (Or.inr ⟨by simp [hbs, h1], h2, h3⟩)
          · simp only [notifyUpdates_append, hbn, notifyUpdates_cons, notifyUpdates_nil,
              List.nil_append, List.filter_append]
            rw [failedFilter_nil hsn]
            simp
        · rw [houtc] at herr2
          exact absurd herr2 (by simp)
      | error e =>
        simp only [houtc] at h
        have hu2 : (if w.mongodb_available then w.upd_orch_fail_error else none) = none := by
          by_cases hm : w.mongodb_available <;> simp [hm, hWo]
        rw [hu2] at h
        simp only [Option.some.injEq] at h
        subst h
        rcases hsync with ⟨hok, _⟩ | ⟨e1, herr2, htr2, hrest⟩
        · rw [houtc] at hok
          exact absurd hok (by simp)
        · rw [houtc] at herr2
          have he1 : e1 = e := by
            simpa using herr2.symm
          subst he1
          refine Or.inr (Or.inr ⟨e1, ha, rfl, htr2, ?_⟩)
          rcases hrest with ⟨hnil, hpre⟩ | ⟨h1, h2, h3, h4⟩
          · refine Or.inl ⟨hpre, ?_, ?_, ?_⟩
            · simp [hbs, hnil]
            · simp [hbe, hnil]
            · simp only [notifyUpdates_append, hbn, notifyUpdates_cons, notifyUpdates_nil,
                notifyUpdates_ite, hnil, List.nil_append, List.append_nil, List.filter_append,
                ite_self]
              simp [failedUpdate]
          · refine Or.inr ⟨?_, ?_, ?_⟩
            · simp [hbs, h1]
            · simp [hbe, h2]
            · simp only [notifyUpdates_append, hbn, notifyUpdates_cons, notifyUpdates_nil,
                notifyUpdates_ite, List.nil_append, List.append_nil, List.filter_append,
                ite_self]
              rw [h3]
              simp [failedUpdate]
  · rw [Bool.not_eq_true] at ha
    rcases hu2m : (if w.mongodb_available then w.upd_unavail_error else none) with _ | e
    swap
    · have hnone : (if w.mongodb_available then w.upd_unavail_error else none) = none := by
        by_cases hm : w.mongodb_available <;> simp [hm, hWu]
      rw [hnone] at hu2m
      exact absurd hu2m (by simp)
    rw [hu2m] at h
    simp only [Option.some.injEq] at h
    subst h
    refine Or.inl ⟨ha, ?_, rfl, rfl, ?_, ?_, ?_, rfl, rfl⟩
    · simp [hbs]
    · simp [hbe]
    · simp only [notifyUpdates_append, hbn, notifyUpdates_cons, notifyUpdates_nil,
        notifyUpdates_ite, List.nil_append, List.append_nil, ite_self]
    · simp [hba]

theorem startAndRun_decomp (cfg : TaskConfig) (w : World) (notify : StatusUpdate → Bool)
    (fuel : Nat) (r : TaskResult) (h : startAndRun cfg w notify fuel = some r) :
    ∃ r0, run_agent_task cfg w notify fuel start_task_register = some r0 ∧
      r.events = Event.setStatus "starting" :: r0.events ∧
      r.record = r0.record ∧ r.syncErr = r0.syncErr ∧ r.truncated = r0.truncated := by
  unfold startAndRun at h
  rcases ht : run_agent_task cfg w notify fuel start_task_register with _ | r0
  · rw [ht] at h
    simp at h
  · rw [ht] at h
    simp at h
    subst h
    exact ⟨r0, rfl, rfl, rfl, rfl, rfl⟩

/-- C1 amended: with a healthy ledger store and a non-raising final step
save, every registry status-write sequence of a finished run lies in the
six-sequence language `observedStatusSeqs`: in particular, the only write
after a terminal status is the orchestrator's duplicate "failed" write that
follows the worker's "failed" write, and the cancellation surface (which can
overwrite even a terminal status with "cancelling" — see the counterexample)
is not invoked after termination. -/
theorem registry_status_path (cfg : TaskConfig) (w : World) (notify : StatusUpdate → Bool)
    (fuel : Nat) (r : TaskResult) (hl : LedgerHealthy w) (hfs : w.final_save_error = none)
    (h : startAndRun cfg w notify fuel = some r) :
    statusWrites r.events ∈ observedStatusSeqs := by
  obtain ⟨r0, h0, hev, _, _, _⟩ := startAndRun_decomp cfg w notify fuel r h
  rw [hev, statusWrites_cons]
  rcases run_agent_task_healthy cfg w notify fuel _ r0 hl hfs h0 with
    ⟨_, h1, _⟩ | ⟨_, _, _, hsw, _⟩ | ⟨e, _, _, _, hcase⟩
  · rw [h1]
    simp [observedStatusSeqs]
  · rcases hsw with ⟨h1, _⟩ | ⟨h1, _⟩ | ⟨h1, _, _⟩ <;> rw [h1] <;> simp [observedStatusSeqs]
  · rcases hcase with ⟨_, h1, _⟩ | ⟨h1, _⟩ <;> rw [h1] <;> simp [observedStatusSeqs]

/-- Witness for `registry_status_path` at the concrete healthy budget-3
run. -/
theorem registry_status_path_witness :
    LedgerHealthy budget3World ∧
    (startAndRun demoConfig budget3World notifyOk 10).map (fun r => statusWrites r.events) =
      some ["starting", "running", "completed"] ∧
    ["starting", "running", "completed"] ∈ observedStatusSeqs := by
  have hl : LedgerHealthy budget3World :=
    ⟨rfl, rfl, rfl, fun _ => rfl, fun _ => rfl, rfl, fun _ => rfl, rfl, rfl, rfl, rfl⟩
  obtain ⟨r, hr⟩ : ∃ r, startAndRun demoConfig budget3World notifyOk 10 = some r := ⟨_, rfl⟩
  have hmem := registry_status_path demoConfig budget3World notifyOk 10 r hl rfl hr
  have hsw : statusWrites r.events = ["starting", "running", "completed"] := by
    have hmap : (startAndRun demoConfig budget3World notifyOk 10).map
        (fun r => statusWrites r.events) = some ["starting", "running", "completed"] := by decide
    rw [hr] at hmap
    simpa using hmap
  refine ⟨hl, ?_, ?_⟩
  · rw [hr]
    simp [hsw]
  · rw [hsw] at hmem
    exact hmem

/-- C2 amended (notifier half): the run never inspects the notifier's
return value (`send_status_update_sync`'s result is discarded at every call
site), so two runs that differ only in the notifier's outcomes — including
an endpoint that fails every call — produce identical results: same events,
same final Task Record, same outcome. The ledger half of the original claim
is false (see the counterexample): a store exception inside the step loop
changes the final status. -/
theorem notifier_failure_irrelevant (cfg : TaskConfig) (w : World)
    (n1 n2 : StatusUpdate → Bool) (fuel : Nat) :
    startAndRun cfg w n1 fuel = startAndRun cfg w n2 fuel := by
  have hIter : ∀ st, stepIter cfg w n1 st = stepIter cfg w n2 st := fun _ => rfl
  have hLoop : ∀ fuel2 d st, stepLoop cfg w n1 fuel2 d st = stepLoop cfg w n2 fuel2 d st := by
    intro fuel2
    induction fuel2 with
    | zero =>
      intro d st
      cases d <;> rfl
    | succ f ih =>
      intro d st
      cases d
      case true => rfl
      case false =>
        by_cases hc : cancelLanded w st.k = true
        · simp only [stepLoop, hc, if_true]
        · simp only [stepLoop, hc, Bool.false_eq_true, if_false]
          rw [hIter st]
          rcases stepIter cfg w n2 st with ⟨evs, st1, e⟩ | ⟨evs, st1⟩ | ⟨evs, st1, d1⟩
          · rfl
          · rfl
          · simp only [ih]
  have hSyncLoop : ∀ evs0 st, runSyncLoop cfg w n1 fuel evs0 st = runSyncLoop cfg w n2 fuel evs0 st := by
    intro evs0 st
    unfold runSyncLoop
    rw [hLoop fuel w.done0 st]
    rcases stepLoop cfg w n2 fuel w.done0 st with _ | ⟨levs, st', ex⟩
    · rfl
    · cases ex <;> rfl
  have hSync : run_agent_sync cfg w n1 fuel ⟨"running", (0 : Nat), (none : Option String)⟩ =
      run_agent_sync cfg w n2 fuel ⟨"running", 0, none⟩ := by
    unfold run_agent_sync
    rcases w.prepare_error with _ | e
    · rcases w.init_error with _ | e
      · rcases w.reset_error with _ | e
        · by_cases hm : w.mongodb_available <;>
            simp only [hm, Bool.false_eq_true, if_true, if_false]
          · rcases w.add_step_error 0 with _ | e
            · rcases w.complete_step_error 0 with _ | e
              · rcases w.capsule_stats_init_error with _ | e
                · exact hSyncLoop _ _
                · rfl
              · rfl
            · rfl
          · exact hSyncLoop _ _
        · rfl
      · rfl
    · rfl
  unfold startAndRun run_agent_task
  by_cases ha : w.agent_available
  · simp only [ha, if_true]
    rw [show (start_task_register.step : Nat) = 0 from rfl,
      show (start_task_register.error : Option String) = none from rfl, hSync]
  · simp only [ha, Bool.false_eq_true, if_false]

/-- C3 amended: once a cancellation request lands while the current step
index is k, the run performs at most one more step — the final registry step
index is at most k + 1 — and terminates in a terminal status: "cancelled"
when the next checkpoint is reached, but "completed" (environment done or
agent out of actions before the checkpoint — see the counterexample) or
"failed" (exception) otherwise; it is never left as "running". -/
theorem cancellation_step_bound (cfg : TaskConfig) (w : World) (notify : StatusUpdate → Bool)
    (fuel : Nat) (r : TaskResult) (c k : Nat)
    (h : startAndRun cfg w notify fuel = some r)
    (hcc : w.cancel_at = some c) (hck : c = k ∨ c = k + 1) :
    r.record.step ≤ k + 1 ∧
    (r.record.status = "cancelled" ∨ r.record.status = "completed" ∨
      r.record.status = "failed") ∧
    r.record.status ≠ "running" := by
  obtain ⟨r0, h0, _, hrec, _, _⟩ := startAndRun_decomp cfg w notify fuel r h
  obtain ⟨hst, hbound⟩ := run_agent_task_record cfg w notify fuel _ r0 h0
  rw [hrec]
  refine ⟨?_, ?_, ?_⟩
  · have hb := hbound rfl c hcc
    omega
  · rcases hst with h1 | h1 | h1
    · exact Or.inr (Or.inr h1)
    · exact Or.inr (Or.inl h1)
    · exact Or.inl h1
  · rcases hst with h1 | h1 | h1 <;> rw [h1] <;> decide

/-- Witness for `cancellation_step_bound` at the concrete run where the
cancellation lands during step 1. -/
theorem cancellation_step_bound_witness :
    cancelLateWorld.cancel_at = some 1 ∧
    (startAndRun demoConfig cancelLateWorld notifyOk 10).map
      (fun r => decide (r.record.step ≤ 1 + 1 ∧ r.record.status ≠ "running")) = some true := by
  refine ⟨rfl, ?_⟩
  obtain ⟨r, hr⟩ : ∃ r, startAndRun demoConfig cancelLateWorld notifyOk 10 = some r := ⟨_, rfl⟩
  obtain ⟨hstep, _, hrun⟩ :=
    cancellation_step_bound demoConfig cancelLateWorld notifyOk 10 r 1 1 hr rfl (Or.inl rfl)
  rw [hr]
  simp [hstep, hrun]

/-- C6: when the agent's decision call returns no action, the loop exits via
the truncation break (`step_info.truncated = true`, the only assignment of
that flag) and — with a healthy ledger store and final save — the run
terminates "completed", never "failed". -/
theorem no_action_truncation_completes (cfg : TaskConfig) (w : World)
    (notify : StatusUpdate → Bool) (fuel : Nat) (r : TaskResult)
    (hl : LedgerHealthy w) (hfs : w.final_save_error = none)
    (h : startAndRun cfg w notify fuel = some r) (htr : r.truncated = true) :
    r.record.status = "completed" ∧ r.record.status ≠ "failed" := by
  obtain ⟨r0, h0, _, hrec, _, htreq⟩ := startAndRun_decomp cfg w notify fuel r h
  rw [htreq] at htr
  rcases run_agent_task_healthy cfg w notify fuel _ r0 hl hfs h0 with
    ⟨_, _, ht1, _⟩ | ⟨_, _, _, _, htc, _⟩ | ⟨e, _, _, ht1, _⟩
  · rw [ht1] at htr
    exact absurd htr (by simp)
  · have hcomp := htc htr
    rw [hrec, hcomp]
    exact ⟨rfl, by decide⟩
  · rw [ht1] at htr
    exact absurd htr (by simp)

/-- Witness for `no_action_truncation_completes` at the concrete world
whose agent returns no action at step 1. -/
theorem no_action_truncation_completes_witness :
    truncWorld.action 1 = none ∧
    (startAndRun demoConfig truncWorld notifyOk 10).map
      (fun r => (r.truncated, r.record.status)) = some (true, "completed") := by
  refine ⟨rfl, ?_⟩
  obtain ⟨r, hr⟩ : ∃ r, startAndRun demoConfig truncWorld notifyOk 10 = some r := ⟨_, rfl⟩
  have hl : LedgerHealthy truncWorld :=
    ⟨rfl, rfl, rfl, fun _ => rfl, fun _ => rfl, rfl, fun _ => rfl, rfl, rfl, rfl, rfl⟩
  have htr : r.truncated = true := by
    have hmap : (startAndRun demoConfig truncWorld notifyOk 10).map (fun r => r.truncated) =
        some true := by decide
    rw [hr] at hmap
    simpa using hmap
  obtain ⟨hcomp, _⟩ :=
    no_action_truncation_completes demoConfig truncWorld notifyOk 10 r hl rfl hr htr
  rw [hr]
  simp [htr, hcomp]

/-- C8: with the agent capability unavailable, the run fast-fails: the
registry goes "starting" then "failed" with the unavailability message
(which contains "not available"), exactly one status update — a terminal
"failed" one — is sent, and no ledger step entry is ever opened (the worker
step loop is never entered). -/
theorem agent_unavailable_spec (cfg : TaskConfig) (w : World) (notify : StatusUpdate → Bool)
    (fuel : Nat) (r : TaskResult)
    (hl : LedgerHealthy w) (hfs : w.final_save_error = none)
    (hna : w.agent_available = false)
    (h : startAndRun cfg w notify fuel = some r) :
    r.record.status = "failed" ∧
    r.record.error = some agent_unavailable_msg ∧
    ("not available".data <:+: agent_unavailable_msg.data) ∧
    notifyUpdates r.events = [failedUpdate cfg 0 agent_unavailable_msg] ∧
    addStepEvents r.events = [] ∧
    statusWrites r.events = ["starting", "failed"] := by
  obtain ⟨r0, h0, hev, hrec, _, _⟩ := startAndRun_decomp cfg w notify fuel r h
  rcases run_agent_task_healthy cfg w notify fuel _ r0 hl hfs h0 with
    ⟨_, hsw, _, _, _, hnu, hadd, hstat, herr⟩ | ⟨hav, _⟩ | ⟨e, hav, _⟩
  · refine ⟨by rw [hrec]; exact hstat, by rw [hrec]; exact herr, by decide, ?_, ?_, ?_⟩
    · rw [hev, notifyUpdates_cons]
      simpa using hnu
    · rw [hev, addStepEvents_cons]
      simpa using hadd
    · rw [hev, statusWrites_cons, hsw]
      rfl
  · rw [hna] at hav
    exact absurd hav (by simp)
  · rw [hna] at hav
    exact absurd hav (by simp)

/-- Witness for `agent_unavailable_spec` at the concrete unavailable
world. -/
theorem agent_unavailable_spec_witness :
    unavailWorld.agent_available = false ∧
    (startAndRun demoConfig unavailWorld notifyOk 5).map
      (fun r => (r.record.status, r.record.error, statusWrites r.events)) =
      some ("failed", some agent_unavailable_msg, ["starting", "failed"]) := by
  refine ⟨rfl, ?_⟩
  obtain ⟨r, hr⟩ : ∃ r, startAndRun demoConfig unavailWorld notifyOk 5 = some r := ⟨_, rfl⟩
  have hl : LedgerHealthy unavailWorld :=
    ⟨rfl, rfl, rfl, fun _ => rfl, fun _ => rfl, rfl, fun _ => rfl, rfl, rfl, rfl, rfl⟩
  obtain ⟨h1, h2, _, _, _, h6⟩ :=
    agent_unavailable_spec demoConfig unavailWorld notifyOk 5 r hl rfl rfl hr
  rw [hr]
  simp [h1, h2, h6]

/-- C10 amended: when an exception escapes the worker's try block (with
healthy ledger, prepare and final save), two distinct terminal "failed"
updates are sent for the task — the worker's, carrying
"Agent error: {exception}", then the orchestrator's, carrying
"Agent task failed: {exception}" — and the registry status and error fields
are each written twice; the second error message re-renders the same
exception under a different prefix (it does not contain the first message —
see the counterexample). -/
theorem worker_exception_double_reporting (cfg : TaskConfig) (w : World)
    (notify : StatusUpdate → Bool) (fuel : Nat) (r : TaskResult) (e : String)
    (hl : LedgerHealthy w) (hfs : w.final_save_error = none) (hpre : w.prepare_error = none)
    (h : startAndRun cfg w notify fuel = some r) (hse : r.syncErr = some e) :
    statusWrites r.events = ["starting", "running", "failed", "failed"] ∧
    errorWrites r.events = ["Agent error: " ++ e, "Agent task failed: " ++ e] ∧
    (notifyUpdates r.events).filter (fun u => u.status == "failed") =
      [failedUpdate cfg r.record.step ("Agent error: " ++ e),
       failedUpdate cfg r.record.step ("Agent task failed: " ++ e)] ∧
    failedUpdate cfg r.record.step ("Agent error: " ++ e) ≠
      failedUpdate cfg r.record.step ("Agent task failed: " ++ e) := by
  obtain ⟨r0, h0, hev, hrec, hseq, _⟩ := startAndRun_decomp cfg w notify fuel r h
  rw [hseq] at hse
  rcases run_agent_task_healthy cfg w notify fuel _ r0 hl hfs h0 with
    ⟨_, _, _, hs0, _⟩ | ⟨_, hs0, _⟩ | ⟨e1, _, hs1, _, hcase⟩
  · rw [hs0] at hse
    exact absurd hse (by simp)
  · rw [hs0] at hse
    exact absurd hse (by simp)
  · rw [hs1] at hse
    have he1 : e1 = e := by
      simpa using hse
    subst he1
    have hne : failedUpdate cfg r.record.step ("Agent error: " ++ e1) ≠
        failedUpdate cfg r.record.step ("Agent task failed: " ++ e1) := by
      intro heq
      have h5 := congrArg StatusUpdate.error heq
      simp only [failedUpdate, Option.some.injEq] at h5
      have h6 := congrArg String.length h5
      rw [String.length_append, String.length_append] at h6
      have hA : ("Agent error: " : String).length = 13 := rfl
      have hB : ("Agent task failed: " : String).length = 19 := rfl
      omega
    rcases hcase with ⟨hp, _⟩ | ⟨h1, h2, h3⟩
    · rw [hpre] at hp
      exact absurd hp (by simp)
    · refine ⟨?_, ?_, ?_, hne⟩
      · rw [hev, statusWrites_cons, h1]
        rfl
      · rw [hev, errorWrites_cons]
        simpa using h2
      · rw [hev, notifyUpdates_cons, hrec]
        simpa using h3

/-- Witness for `worker_exception_double_reporting` at the concrete world
whose agent raises at step 1. -/
theorem worker_exception_double_reporting_witness :
    (startAndRun demoConfig crashWorld notifyOk 10).map (fun r => r.syncErr) =
      some (some "ValueError: boom") ∧
    (startAndRun demoConfig crashWorld notifyOk 10).map (fun r => statusWrites r.events) =
      some ["starting", "running", "failed", "failed"] := by
  obtain ⟨r, hr⟩ : ∃ r, startAndRun demoConfig crashWorld notifyOk 10 = some r := ⟨_, rfl⟩
  have hl : LedgerHealthy crashWorld :=
    ⟨rfl, rfl, rfl, fun _ => rfl, fun _ => rfl, rfl, fun _ => rfl, rfl, rfl, rfl, rfl⟩
  have hse : r.syncErr = some "ValueError: boom" := by
    have hmap : (startAndRun demoConfig crashWorld notifyOk 10).map (fun r => r.syncErr) =
        some (some "ValueError: boom") := by decide
    rw [hr] at hmap
    simpa using hmap
  obtain ⟨h1, _⟩ := worker_exception_double_reporting demoConfig crashWorld notifyOk 10 r
    "ValueError: boom" hl rfl rfl hr hse
  constructor
  · rw [hr]
    simp [hse]
  · rw [hr]
    simp [h1]

end WebAgent
